import Mathlib

set_option linter.unusedVariables false

/-!
Shallow embedding of the Gauntlet session engine of this repository
(source: the client component in src/unnamed/part_004).

Modelling conventions:
* Items are an opaque type `T`; the engine's stable identity extractor
  (`getQuestionItemId` in the source, which inspects the
  kana/kanjiChar/word/id keys of the opaque item object) is modelled as a
  parameter `getId : T → String`, as described by the spec's data model
  ("a function mapping item → string ID").
* JavaScript numbers holding millisecond timestamps are modelled as `Int`
  (`Date.now()` differences can be negative under clock anomalies);
  counters that are only ever incremented from zero are modelled as `Nat`;
  `lives` is an `Int` so that "never below 0" is a substantive statement.
* The float divisions in the accuracy and average computations are
  modelled as `ℚ`.
* The two `random.integer` call sites are modelled by explicit oracle
  arguments: a list `js` of drawn indices for the Fisher–Yates shuffle
  (one draw per loop iteration, `js[k]` being the value of
  `random.integer(0, i)` at the iteration with that `i`), and a single
  draw `r` for the re-queue offset of a wrong answer.
* React `useState` setters all commit before the next event is dispatched
  (the spec's sequencing contract, §5), so one `submitAnswer` call is one
  state-to-state function.  Callback closures inside the handler observe
  the pre-event values; where the source reads a closure value that is
  stale with respect to a `setX` issued earlier in the same handler
  (`endGame` reading `answerTimes`, `characterStats`, `livesRegenerated`),
  the embedding passes the pre-event state `s0` to `endGameStats`.
-/

namespace KanaDojo

/-- Session lifecycle phase of the Gauntlet component
(`useState<'pregame' | 'playing' | 'results'>`). -/
inductive Phase where
  | pregame
  | playing
  | results
  deriving DecidableEq, Repr

/-- Queue entry (`GauntletQuestion<T>` in the source): the opaque item, the
observational queue index (reassigned after the shuffle), and which
repetition of the item this entry is. -/
structure GauntletQuestion (T : Type) where
  item : T
  index : Nat
  repetitionNumber : Nat
  deriving DecidableEq, Repr

/-- Modelled from the spec: the `DIFFICULTY_CONFIG` table lives in the
component's `./types` module, which is not under src/; per the spec (§6),
a difficulty selects the starting lives and whether lives regenerate, so a
configuration carries those two values directly, next to the inbound
configuration (item list and repetition count) that the component receives
as props. -/
structure GauntletConfig (T : Type) where
  items : List T
  repetitions : Nat
  maxLives : Nat
  regenerates : Bool

/-- Total question target: `items.length * repetitions` in the source. -/
def totalQuestions {T : Type} (cfg : GauntletConfig T) : Nat :=
  cfg.items.length * cfg.repetitions

/-- Session result snapshot (`GauntletSessionStats` minus presentation-only
metadata: timestamp, dojoType, difficulty and gameMode labels, and
selectedSets are omitted; every numeric field computed by `endGame` is
kept with its source formula). -/
structure SessionResult where
  totalQuestions : Nat
  correctAnswers : Nat
  wrongAnswers : Nat
  accuracy : ℚ
  bestStreak : Nat
  currentStreak : Nat
  startingLives : Nat
  livesRemaining : Int
  livesLost : Int
  livesRegenerated : Nat
  totalTimeMs : Int
  averageTimePerQuestionMs : ℚ
  fastestAnswerMs : Int
  slowestAnswerMs : Int
  completed : Bool
  questionsCompleted : Nat
  characterStats : List (String × Nat × Nat)
  totalCharacters : Nat
  repetitionsPerChar : Nat
  deriving DecidableEq, Repr

/-- The engine-owned mutable state: one field per `useState`/`useRef` of
the component that belongs to the session engine (input/option state and
animation flags are presentation-only and omitted).  `characterStats` is
the `Record<string, {correct, wrong}>` modelled as an association list. -/
structure GauntletState (T : Type) where
  phase : Phase
  questionQueue : List (GauntletQuestion T)
  currentIndex : Nat
  lives : Int
  maxLives : Nat
  correctSinceLastRegen : Nat
  regenThreshold : Nat
  correctAnswers : Nat
  wrongAnswers : Nat
  currentStreak : Nat
  bestStreak : Nat
  livesRegenerated : Nat
  characterStats : List (String × Nat × Nat)
  startTime : Int
  answerTimes : List Int
  lastAnswerTime : Int
  sessionStats : Option SessionResult
  deriving DecidableEq, Repr

/-- Initial `useState` values of the component (pregame, before any
session has started). -/
def initialState (T : Type) : GauntletState T where
  phase := Phase.pregame
  questionQueue := []
  currentIndex := 0
  lives := 3
  maxLives := 3
  correctSinceLastRegen := 0
  regenThreshold := 10
  correctAnswers := 0
  wrongAnswers := 0
  currentStreak := 0
  bestStreak := 0
  livesRegenerated := 0
  characterStats := []
  startTime := 0
  answerTimes := []
  lastAnswerTime := 0
  sessionStats := none

/-- Threshold for life regeneration (`calculateRegenThreshold`):
`Math.max(5, Math.min(20, Math.ceil(totalQuestions * 0.1)))`.
`Math.ceil(n * 0.1)` equals `⌈n / 10⌉` for every relevant `n` (the float
product `n * 0.1` rounds to a value whose ceiling is `⌈n / 10⌉` for all
`n ≤ 200`, and above 200 both sides are clamped to 20), modelled here as
`(n + 9) / 10` in `Nat`. -/
def calculateRegenThreshold (totalQuestions : Nat) : Nat :=
  max 5 (min 20 ((totalQuestions + 9) / 10))

/-- Array element swap `[q[i], q[j]] = [q[j], q[i]]`; out-of-range indices
leave the list unchanged (all source call sites use in-range indices). -/
def listSwap {α : Type} (l : List α) (i j : Nat) : List α :=
  match l[i]?, l[j]? with
  | some a, some b => (l.set i b).set j a
  | _, _ => l

/-- JavaScript `array.splice(pos, 0, a)`: insert `a` at position `pos`,
clamping `pos` to the end of the array when it is past it. -/
def spliceInsert {α : Type} : List α → Nat → α → List α
  | l, 0, a => a :: l
  | [], _ + 1, a => [a]
  | x :: xs, n + 1, a => x :: spliceInsert xs n a

/-- Forward search shared by the stabilization pass and
`ensureNextQuestionIsDifferent`: walking `l` whose head sits at absolute
index `j`, return the absolute index of the first entry whose identity
differs from `currentId` (`for (j = start; j < len; j++) if (getId(q[j]) !==
currentId) ...`). -/
def findDiffAux {T : Type} (getId : T → String) (currentId : String) :
    List (GauntletQuestion T) → Nat → Option Nat
  | [], _ => none
  | q :: qs, j =>
    if getId q.item ≠ currentId then some j else findDiffAux getId currentId qs (j + 1)

/-- First absolute index `≥ start` in `queue` holding an identity different
from `currentId`, `none` if every entry from `start` on matches. -/
def findDiffFrom {T : Type} (getId : T → String) (currentId : String)
    (queue : List (GauntletQuestion T)) (start : Nat) : Option Nat :=
  findDiffAux getId currentId (queue.drop start) start

/-- One iteration of the `stabilizeQueueNoImmediateRepeats` loop at index
`i`: when `q[i]` and `q[i+1]` share an identity, the nearest later entry
with a different identity (search from `i + 2`) is swapped into slot
`i + 1`; if no such entry exists (`swapIndex === -1`) the queue is left
unchanged. -/
def stabilizeStep {T : Type} (getId : T → String)
    (queue : List (GauntletQuestion T)) (i : Nat) : List (GauntletQuestion T) :=
  match queue[i]?, queue[i + 1]? with
  | some qi, some qn =>
    if getId qi.item = getId qn.item then
      match findDiffFrom getId (getId qi.item) queue (i + 2) with
      | some swapIndex => listSwap queue (i + 1) swapIndex
      | none => queue
    else queue
  | _, _ => queue

/-- The stabilization loop `for (i = 0; i < queue.length - 1; i++)`,
written with an explicit iteration count: every iteration preserves the
queue length (`stabilizeStep` only swaps), so running exactly
`queue.length - 1` steps from `i = 0` is the source loop. -/
def stabilizeLoop {T : Type} (getId : T → String) :
    List (GauntletQuestion T) → Nat → Nat → List (GauntletQuestion T)
  | q, _, 0 => q
  | q, i, n + 1 => stabilizeLoop getId (stabilizeStep getId q i) (i + 1) n

/-- `stabilizeQueueNoImmediateRepeats`: single forward pass that, at each
adjacent same-identity pair, swaps the nearest later different-identity
entry into the following slot. -/
def stabilizeQueueNoImmediateRepeats {T : Type} (getId : T → String)
    (queue : List (GauntletQuestion T)) : List (GauntletQuestion T) :=
  stabilizeLoop getId queue 0 (queue.length - 1)

/-- Cross-product construction of `generateQuestionQueue` before the
shuffle: each item appears once per repetition number `1..repetitions`,
with the placeholder index 0 ("will be set after shuffle"). -/
def buildQueue {T : Type} (items : List T) (repetitions : Nat) :
    List (GauntletQuestion T) :=
  items.flatMap fun item =>
    (List.range repetitions).map fun rep =>
      { item := item, index := 0, repetitionNumber := rep + 1 }

/-- The Fisher–Yates loop `for (i = len - 1; i > 0; i--) swap(q[i],
q[random.integer(0, i)])`, consuming one oracle draw per iteration. -/
def fyGo {α : Type} : List α → Nat → List Nat → List α
  | q, 0, _ => q
  | q, _ + 1, [] => q
  | q, i + 1, j :: js => fyGo (listSwap q (i + 1) j) i js

/-- Fisher–Yates shuffle of the queue, parameterised by the oracle draws
`js` (draw `k` is the value returned by `random.integer(0, i)` at the
iteration where the loop counter is `i = len - 1 - k`). -/
def fisherYatesShuffle {α : Type} (q : List α) (js : List Nat) : List α :=
  fyGo q (q.length - 1) js

/-- Index reassignment after the shuffle
(`queue.forEach((q, i) => { q.index = i })`), with `k` the index of the
current head. -/
def setIndicesFrom {T : Type} : Nat → List (GauntletQuestion T) → List (GauntletQuestion T)
  | _, [] => []
  | k, q :: qs => { q with index := k } :: setIndicesFrom (k + 1) qs

/-- `generateQuestionQueue`: cross product, Fisher–Yates shuffle (oracle
`js`), stabilization pass, index reassignment. -/
def generateQuestionQueue {T : Type} (getId : T → String) (items : List T)
    (repetitions : Nat) (js : List Nat) : List (GauntletQuestion T) :=
  let queue := buildQueue items repetitions
  let shuffled := fisherYatesShuffle queue js
  let stabilized := stabilizeQueueNoImmediateRepeats getId shuffled
  setIndicesFrom 0 stabilized

/-- `ensureNextQuestionIsDifferent(queue, answeredIndex)`: if the entry
after `answeredIndex` shares its identity, swap in the nearest later entry
with a different identity (search from `answeredIndex + 2`); return the
queue unchanged when the next entry is already different, past the end, or
no different later entry exists.  The inner `none` branch of the match on
`queue[answeredIndex]?` is unreachable (the source reads
`queue[answeredIndex].item` unguarded, which is safe because
`answeredIndex < nextIndex < queue.length` there). -/
def ensureNextQuestionIsDifferent {T : Type} (getId : T → String)
    (queue : List (GauntletQuestion T)) (answeredIndex : Nat) :
    List (GauntletQuestion T) :=
  let nextIndex := answeredIndex + 1
  match queue[nextIndex]? with
  | none => queue
  | some nextQ =>
    match queue[answeredIndex]? with
    | none => queue
    | some answeredQ =>
      if getId answeredQ.item ≠ getId nextQ.item then queue
      else
        match findDiffFrom getId (getId answeredQ.item) queue (nextIndex + 1) with
        | none => queue
        | some swapIndex => listSwap queue nextIndex swapIndex

/-- Per-character tally read `prev[charId] ?? {correct: 0, wrong: 0}` on
the association-list model of the stats record. -/
def statLookup (stats : List (String × Nat × Nat)) (charId : String) : Nat × Nat :=
  match stats.lookup charId with
  | some v => v
  | none => (0, 0)

/-- Record spread update `{...prev, [charId]: v}` on the association-list
model: replace the binding when present, append it otherwise. -/
def statSet (stats : List (String × Nat × Nat)) (charId : String) (v : Nat × Nat) :
    List (String × Nat × Nat) :=
  if stats.any (fun p => p.1 = charId) then
    stats.map fun p => if p.1 = charId then (charId, v) else p
  else stats ++ [(charId, v)]

/-- `recordAnswerTime`: when the last-answer timestamp is set (positive)
and the elapsed time since it is strictly positive, append the elapsed
time; in every case the last-answer timestamp becomes `now`. -/
def recordAnswerTime {T : Type} (s : GauntletState T) (now : Int) : GauntletState T :=
  let s' :=
    if 0 < s.lastAnswerTime ∧ 0 < now - s.lastAnswerTime then
      { s with answerTimes := s.answerTimes ++ [now - s.lastAnswerTime] }
    else s
  { s' with lastAnswerTime := now }

/-- Average of a list of durations (`reduce((a, b) => a + b, 0) / length`
in the source), 0 for the empty list (the `validAnswerTimes.length > 0`
guard). -/
def averageOf (l : List Int) : ℚ :=
  if 0 < l.length then ((l.foldl (· + ·) 0 : Int) : ℚ) / (l.length : ℚ) else 0

/-- `Math.min(...l)`, guarded to 0 on the empty list. -/
def minOf (l : List Int) : Int :=
  match l with
  | [] => 0
  | t :: ts => ts.foldl min t

/-- `Math.max(...l)`, guarded to 0 on the empty list. -/
def maxOf (l : List Int) : Int :=
  match l with
  | [] => 0
  | t :: ts => ts.foldl max t

/-- The `SessionResult` computed by `endGame`.  `s0` is the pre-event
state: `endGame`'s closure reads of `startTime`, `answerTimes`, `maxLives`,
`livesRegenerated` and `characterStats` observe the values from before the
current `submitAnswer` (React state setters issued earlier in the same
handler have not committed yet), while the six `actual*` values are passed
explicitly by the caller for exactly that reason (source comment "to avoid
stale closure issues").  `Date.now()` inside `endGame` is modelled as the
same instant `now` as the answer being processed. -/
def endGameStats {T : Type} (cfg : GauntletConfig T) (s0 : GauntletState T)
    (now : Int) (completed : Bool) (actualLives : Int)
    (actualCorrectAnswers actualWrongAnswers actualQuestionsCompleted
      actualBestStreak actualCurrentStreak : Nat) : SessionResult :=
  let totalTimeMs := now - s0.startTime
  let validAnswerTimes := s0.answerTimes.filter fun t => decide (0 < t)
  { totalQuestions := totalQuestions cfg
    correctAnswers := actualCorrectAnswers
    wrongAnswers := actualWrongAnswers
    accuracy :=
      if 0 < actualCorrectAnswers + actualWrongAnswers then
        (actualCorrectAnswers : ℚ) / ((actualCorrectAnswers : ℚ) + (actualWrongAnswers : ℚ))
      else 0
    bestStreak := actualBestStreak
    currentStreak := actualCurrentStreak
    startingLives := s0.maxLives
    livesRemaining := actualLives
    livesLost := (s0.maxLives : Int) - actualLives + (s0.livesRegenerated : Int)
    livesRegenerated := s0.livesRegenerated
    totalTimeMs := totalTimeMs
    averageTimePerQuestionMs := averageOf validAnswerTimes
    fastestAnswerMs := minOf validAnswerTimes
    slowestAnswerMs := maxOf validAnswerTimes
    completed := completed
    questionsCompleted := actualQuestionsCompleted
    characterStats := s0.characterStats
    totalCharacters := cfg.items.length
    repetitionsPerChar := cfg.repetitions }

/-- Re-queue of a failed entry (the wrong-answer arm of
`advanceToNextQuestion`): unless the queue has already grown to
`3 × totalQuestions`, a clone of the failed entry is spliced back in at
`currentIndex + insertOffset`, where `insertOffset` is the oracle draw `r`
of `random.integer(minOffset, maxOffset)` — `minOffset = 2` when more than
one slot remains (else 1), `maxOffset = max(minOffset, min(remaining, 5))`
— or the constant 1 when no slots remain after the current one.  The
`none` arm of the match is unreachable at the call site
(`currentIndex < queue.length` there). -/
def requeuedQueue {T : Type} (cfg : GauntletConfig T)
    (prevQueue : List (GauntletQuestion T)) (currentIndex : Nat) (r : Nat) :
    List (GauntletQuestion T) :=
  let maxQueueSize := totalQuestions cfg * 3
  if prevQueue.length < maxQueueSize then
    match prevQueue[currentIndex]? with
    | some failedQuestion =>
      let remainingLength := prevQueue.length - (currentIndex + 1)
      let minOffset := if 1 < remainingLength then 2 else 1
      let maxOffset := max minOffset (min remainingLength 5)
      let insertOffset := if 0 < remainingLength then r else 1
      spliceInsert prevQueue (currentIndex + insertOffset) failedQuestion
    | none => prevQueue
  else prevQueue

/-- `advanceToNextQuestion(newLives, wasCorrect, ...)`.  `s0` is the
pre-event state (closure snapshot for `endGame`), `s` the state
accumulated so far in this `submitAnswer` (counter/life updates applied);
the closure reads of `questionQueue` and `currentIndex` agree between the
two because nothing earlier in the handler touches them.  Dispatch order
as in the source: lives-at-zero termination first, then (on a correct
answer) target-reached termination, then the advance with re-stabilization
(correct) or re-queue plus re-stabilization (wrong), in both cases moving
`currentIndex` one slot forward. -/
def advanceToNextQuestion {T : Type} (getId : T → String) (cfg : GauntletConfig T)
    (s0 s : GauntletState T) (now : Int) (r : Nat) (newLives : Int)
    (wasCorrect : Bool) (newCorrectAnswers newWrongAnswers questionsCompleted
      newBestStreak newCurrentStreak : Nat) : GauntletState T :=
  if newLives ≤ 0 then
    { s with
      phase := Phase.results
      sessionStats := some (endGameStats cfg s0 now false newLives newCorrectAnswers
        newWrongAnswers questionsCompleted newBestStreak newCurrentStreak) }
  else if wasCorrect then
    if totalQuestions cfg ≤ newCorrectAnswers then
      { s with
        phase := Phase.results
        sessionStats := some (endGameStats cfg s0 now true newLives newCorrectAnswers
          newWrongAnswers questionsCompleted newBestStreak newCurrentStreak) }
    else
      let stabilizedQueue := ensureNextQuestionIsDifferent getId s.questionQueue s.currentIndex
      { s with questionQueue := stabilizedQueue, currentIndex := s.currentIndex + 1 }
  else
    let newQueue := requeuedQueue cfg s.questionQueue s.currentIndex r
    let stabilizedQueue := ensureNextQuestionIsDifferent getId newQueue s.currentIndex
    { s with questionQueue := stabilizedQueue, currentIndex := s.currentIndex + 1 }

/-- `currentQuestion`: `questionQueue[currentIndex] || null`. -/
def currentQuestion {T : Type} (s : GauntletState T) : Option (GauntletQuestion T) :=
  s.questionQueue[s.currentIndex]?

/-- State updates issued by the correct-answer arm of `submitAnswer`
before it calls `advanceToNextQuestion`: elapsed-time recording, the
correct/streak counters, the per-item correct tally, and the life
regeneration check — when the difficulty regenerates and lives are below
max, the regen counter is incremented, and on reaching `regenThreshold`
one life is restored (clamped to `maxLives`), the counter resets and the
regeneration event is counted. -/
def correctUpdatedState {T : Type} (getId : T → String) (cfg : GauntletConfig T)
    (s : GauntletState T) (cq : GauntletQuestion T) (now : Int) : GauntletState T :=
  let s1 := recordAnswerTime s now
  let newCurrentStreak := s.currentStreak + 1
  let newBestStreak := max s.bestStreak newCurrentStreak
  let charId := getId cq.item
  let prevStat := statLookup s1.characterStats charId
  let s2 :=
    { s1 with
      correctAnswers := s1.correctAnswers + 1
      currentStreak := newCurrentStreak
      bestStreak := newBestStreak
      characterStats := statSet s1.characterStats charId (prevStat.1 + 1, prevStat.2) }
  if cfg.regenerates = true ∧ s.lives < (s.maxLives : Int) then
    if s.regenThreshold ≤ s.correctSinceLastRegen + 1 then
      { s2 with
        lives := min (s2.lives + 1) (s2.maxLives : Int)
        correctSinceLastRegen := 0
        livesRegenerated := s2.livesRegenerated + 1 }
    else { s2 with correctSinceLastRegen := s.correctSinceLastRegen + 1 }
  else s2

/-- State updates issued by the wrong-answer arm of `submitAnswer` before
it calls `advanceToNextQuestion`: elapsed-time recording, the wrong
counter, the streak and regen-counter resets, the per-item wrong tally,
and the unclamped life decrement `newLives = lives - 1`. -/
def wrongUpdatedState {T : Type} (getId : T → String) (s : GauntletState T)
    (cq : GauntletQuestion T) (now : Int) : GauntletState T :=
  let s1 := recordAnswerTime s now
  let charId := getId cq.item
  let prevStat := statLookup s1.characterStats charId
  let s2 :=
    { s1 with
      wrongAnswers := s1.wrongAnswers + 1
      currentStreak := 0
      correctSinceLastRegen := 0
      characterStats := statSet s1.characterStats charId (prevStat.1, prevStat.2 + 1) }
  { s2 with lives := s.lives - 1 }

/-- `submitAnswer(isCorrect)`, one full transition.  The leading phase
guard models the component as a whole: `ActiveGame` (the only caller of
`submitAnswer`) is rendered only in the playing phase, so the event cannot
be dispatched in pregame or results; inside the playing phase the source's
own guard `if (!currentQuestion) return` is the match on
`currentQuestion`.  The arguments passed to `advanceToNextQuestion` are
the inline `new*` values computed by the source from the pre-event state
`s` (note that on a correct answer the `newLives` argument is the
pre-regeneration `s.lives`). -/
def submitAnswer {T : Type} (getId : T → String) (cfg : GauntletConfig T)
    (s : GauntletState T) (isCorrect : Bool) (now : Int) (r : Nat) : GauntletState T :=
  if s.phase ≠ Phase.playing then s
  else
    match currentQuestion s with
    | none => s
    | some cq =>
      if isCorrect then
        advanceToNextQuestion getId cfg s (correctUpdatedState getId cfg s cq now) now r
          s.lives true (s.correctAnswers + 1) s.wrongAnswers (s.currentIndex + 1)
          (max s.bestStreak (s.currentStreak + 1)) (s.currentStreak + 1)
      else
        advanceToNextQuestion getId cfg s (wrongUpdatedState getId s cq now) now r
          (s.lives - 1) false s.correctAnswers (s.wrongAnswers + 1) (s.currentIndex + 1)
          s.bestStreak 0

/-- `handleStart`: (re)initialise every session field from the
configuration, generate the queue (shuffle oracle `js`), compute the regen
threshold from the generated queue's length, stamp the start time `now`
into both `startTime` and the last-answer timestamp, and enter the playing
phase.  `sessionStats` is the one session field `handleStart` does not
reset (the source leaves it to be overwritten by the next `endGame`). -/
def handleStart {T : Type} (getId : T → String) (cfg : GauntletConfig T)
    (s : GauntletState T) (now : Int) (js : List Nat) : GauntletState T :=
  let queue := generateQuestionQueue getId cfg.items cfg.repetitions js
  let threshold := calculateRegenThreshold queue.length
  { s with
    phase := Phase.playing
    questionQueue := queue
    currentIndex := 0
    lives := (cfg.maxLives : Int)
    maxLives := cfg.maxLives
    correctSinceLastRegen := 0
    regenThreshold := threshold
    correctAnswers := 0
    wrongAnswers := 0
    currentStreak := 0
    bestStreak := 0
    livesRegenerated := 0
    characterStats := []
    startTime := now
    answerTimes := []
    lastAnswerTime := now }

/-- States a session can be in: a start (or restart) via `handleStart`
from any prior component state, followed by any number of `submitAnswer`
events with arbitrary oracle values.  The three side conditions on the
start are the component's own startup guards and the spec-modelled parts
of the missing `./types` module: the component renders the empty state
instead of starting when `items.length === 0` (spec §7), the repetition
count is drawn from the positive `RepetitionCount` set (spec §6, "bounded
small integer set, e.g. 1/2/3"), and every difficulty grants at least one
starting life (spec §8 uses 3 and 1). -/
inductive Reachable {T : Type} (getId : T → String) (cfg : GauntletConfig T) :
    GauntletState T → Prop where
  | start (s0 : GauntletState T) (now : Int) (js : List Nat)
      (hItems : cfg.items ≠ []) (hReps : 1 ≤ cfg.repetitions)
      (hLives : 1 ≤ cfg.maxLives) :
      Reachable getId cfg (handleStart getId cfg s0 now js)
  | step {s : GauntletState T} (hs : Reachable getId cfg s)
      (isCorrect : Bool) (now : Int) (r : Nat) :
      Reachable getId cfg (submitAnswer getId cfg s isCorrect now r)

/-! ### Identity sequence of a queue -/

/-- Identity of the queue entry at index `k` (`none` past the end). -/
def qid {T : Type} (getId : T → String) (q : List (GauntletQuestion T)) (k : Nat) :
    Option String :=
  (q[k]?).map fun e => getId e.item

/-- Adjacent entries at indices below `i` all differ in identity. -/
def AdjDistinctBelow {T : Type} (getId : T → String)
    (q : List (GauntletQuestion T)) (i : Nat) : Prop :=
  ∀ k, k + 1 < q.length → k < i → qid getId q k ≠ qid getId q (k + 1)

/-- Every entry from index `k` on shares the identity of entry `k`. -/
def ConstFrom {T : Type} (getId : T → String)
    (q : List (GauntletQuestion T)) (k : Nat) : Prop :=
  ∀ m, k ≤ m → m < q.length → qid getId q m = qid getId q k

/-- Invariant of the stabilization loop when it is about to process index
`i`: the prefix processed so far has no adjacent repeat, except that the
loop may already have run into a uniform tail (all entries from some `k`
share one identity), after which it makes no further change. -/
def StabInv {T : Type} (getId : T → String)
    (q : List (GauntletQuestion T)) (i : Nat) : Prop :=
  AdjDistinctBelow getId q i ∨
    ∃ k, AdjDistinctBelow getId q k ∧ ConstFrom getId q k ∧ k < i

/-- Post-state of the finished pass: no adjacent repeat anywhere, or a
repeat-free prefix followed by a uniform tail. -/
def StabPost {T : Type} (getId : T → String)
    (q : List (GauntletQuestion T)) : Prop :=
  AdjDistinctBelow getId q q.length ∨
    ∃ k, AdjDistinctBelow getId q k ∧ ConstFrom getId q k

/-- Invariant maintained by every session: lives stay inside
`[0, maxLives]` (and are strictly positive while playing), the queue never
grows past `3 × totalQuestions`, and every recorded answer duration is
strictly positive. -/
def SessionInvariant {T : Type} (cfg : GauntletConfig T) (s : GauntletState T) : Prop :=
  0 ≤ s.lives ∧ s.lives ≤ (s.maxLives : Int) ∧
    (s.phase = Phase.playing → 1 ≤ s.lives) ∧
    s.questionQueue.length ≤ totalQuestions cfg * 3 ∧
    (∀ t ∈ s.answerTimes, 0 < t)



/-- Completion flag of the recorded session result, when one exists. -/
def completedFlag {T : Type} (s : GauntletState T) : Option Bool :=
  s.sessionStats.map fun res => res.completed

/-- Identity extractor for string items: the concrete sessions below use
strings that are their own identities. -/
def strId : String → String := fun x => x

/-- Concrete session setup: one item, one repetition, one life, no
regeneration. -/
def cfgSingleA : GauntletConfig String :=
  { items := ["a"], repetitions := 1, maxLives := 1, regenerates := false }

/-- Session of `cfgSingleA` started at time 1000 (the shuffle of a
one-entry queue draws nothing). -/
def stateSingleA0 : GauntletState String :=
  handleStart strId cfgSingleA (initialState String) 1000 []

/-- Concrete session setup: two items, one repetition, three lives. -/
def cfgPairAB : GauntletConfig String :=
  { items := ["a", "b"], repetitions := 1, maxLives := 3, regenerates := false }

/-- Session of `cfgPairAB` started at 1000; the oracle draw `[1]` leaves
the queue in the order a, b. -/
def statePairAB0 : GauntletState String :=
  handleStart strId cfgPairAB (initialState String) 1000 [1]

/-- The `cfgPairAB` session after answering the first question (a)
correctly. -/
def statePairAB1 : GauntletState String :=
  submitAnswer strId cfgPairAB statePairAB0 true 1100 0

/-- The `cfgPairAB` session after then answering the second question (b)
wrongly: the re-queued clone of b is the only entry left, so the no-repeat
fallback presents b again. -/
def statePairAB2 : GauntletState String :=
  submitAnswer strId cfgPairAB statePairAB1 false 1200 0

/-- Concrete session setup for the softlock trace: one item, one
repetition, four starting lives. -/
def cfgSoftlock : GauntletConfig String :=
  { items := ["a"], repetitions := 1, maxLives := 4, regenerates := false }

/-- Three consecutive wrong answers on the one-item session: the first two
re-queue clones of the single item, the third hits the
`3 × totalQuestions` cap and advances past the end of the queue. -/
def softlockState3 : GauntletState String :=
  submitAnswer strId cfgSoftlock
    (submitAnswer strId cfgSoftlock
      (submitAnswer strId cfgSoftlock
        (handleStart strId cfgSoftlock (initialState String) 1000 [])
        false 2000 0)
      false 3000 0)
    false 4000 0

/-- Concrete session setup with life regeneration enabled. -/
def cfgRegenAB : GauntletConfig String :=
  { items := ["a", "b"], repetitions := 1, maxLives := 3, regenerates := true }

/-- A mid-session state of the `cfgRegenAB` session: one life lost, regen
counter one short of the threshold, so the next correct answer restores a
life. -/
def regenDemoState : GauntletState String :=
  { handleStart strId cfgRegenAB (initialState String) 1000 [1] with
    lives := 2, correctSinceLastRegen := 4, regenThreshold := 5 }

/-- The session result recorded when the one-life session is failed by a
wrong answer at time 1500. -/
def resSingleA : SessionResult :=
  endGameStats cfgSingleA stateSingleA0 1500 false 0 0 1 1 0 0

/-- A playing-phase state with an empty queue (no current question). -/
def emptyPlayingState : GauntletState String :=
  { initialState String with phase := Phase.playing }

/-- Iterated correct answers: dispatch `k` consecutive correct
submitAnswer events, the i-th at time `times i` (the re-queue oracle is
never consulted on a correct answer). -/
def submitCorrectN {T : Type} (getId : T → String) (cfg : GauntletConfig T) :
    Nat → GauntletState T → (Nat → Int) → GauntletState T
  | 0, s, _ => s
  | k + 1, s, times =>
    submitCorrectN getId cfg k (submitAnswer getId cfg s true (times 0) 0)
      (fun i => times (i + 1))

/-! ### Length preservation -/

theorem length_listSwap {α : Type} (l : List α) (i j : Nat) :
    (listSwap l i j).length = l.length := by
  unfold listSwap
  split <;> simp

theorem length_spliceInsert {α : Type} :
    ∀ (l : List α) (n : Nat) (a : α), (spliceInsert l n a).length = l.length + 1
  | l, 0, a => by simp [spliceInsert]
  | [], n + 1, a => by simp [spliceInsert]
  | x :: xs, n + 1, a => by
    simp [spliceInsert, length_spliceInsert xs n a]

theorem length_stabilizeStep {T : Type} (getId : T → String)
    (q : List (GauntletQuestion T)) (i : Nat) :
    (stabilizeStep getId q i).length = q.length := by
  unfold stabilizeStep
  split
  · split
    · split
      · simp [length_listSwap]
      · rfl
    · rfl
  · rfl

theorem length_stabilizeLoop {T : Type} (getId : T → String) :
    ∀ (n : Nat) (q : List (GauntletQuestion T)) (i : Nat),
      (stabilizeLoop getId q i n).length = q.length
  | 0, _, _ => rfl
  | n + 1, q, i => by
    simp [stabilizeLoop, length_stabilizeLoop getId n, length_stabilizeStep]

theorem length_stabilizeQueue {T : Type} (getId : T → String)
    (q : List (GauntletQuestion T)) :
    (stabilizeQueueNoImmediateRepeats getId q).length = q.length :=
  length_stabilizeLoop getId _ q 0

theorem length_fyGo {α : Type} :
    ∀ (q : List α) (i : Nat) (js : List Nat), (fyGo q i js).length = q.length
  | _, 0, _ => rfl
  | _, _ + 1, [] => rfl
  | q, i + 1, j :: js => by
    simp [fyGo, length_fyGo (listSwap q (i + 1) j) i js, length_listSwap]

theorem length_fisherYatesShuffle {α : Type} (q : List α) (js : List Nat) :
    (fisherYatesShuffle q js).length = q.length :=
  length_fyGo q (q.length - 1) js

theorem length_buildQueue {T : Type} :
    ∀ (items : List T) (reps : Nat), (buildQueue items reps).length = items.length * reps
  | [], reps => by simp [buildQueue]
  | x :: xs, reps => by
    have ih := length_buildQueue xs reps
    simp only [buildQueue, List.flatMap_cons, List.length_append, List.length_map,
      List.length_range] at *
    rw [ih]
    simp [Nat.succ_mul, Nat.add_comm]

theorem length_setIndicesFrom {T : Type} :
    ∀ (k : Nat) (l : List (GauntletQuestion T)), (setIndicesFrom k l).length = l.length
  | _, [] => rfl
  | k, q :: qs => by simp [setIndicesFrom, length_setIndicesFrom (k + 1) qs]

theorem length_generateQuestionQueue {T : Type} (getId : T → String) (items : List T)
    (repetitions : Nat) (js : List Nat) :
    (generateQuestionQueue getId items repetitions js).length = items.length * repetitions := by
  unfold generateQuestionQueue
  simp [length_setIndicesFrom, length_stabilizeQueue, length_fisherYatesShuffle,
    length_buildQueue]

theorem length_ensureNextQuestionIsDifferent {T : Type} (getId : T → String)
    (q : List (GauntletQuestion T)) (answeredIndex : Nat) :
    (ensureNextQuestionIsDifferent getId q answeredIndex).length = q.length := by
  simp only [ensureNextQuestionIsDifferent]
  repeat' split
  all_goals simp [length_listSwap]

theorem requeuedQueue_of_ge {T : Type} (cfg : GauntletConfig T)
    (q : List (GauntletQuestion T)) (ci r : Nat)
    (hge : totalQuestions cfg * 3 ≤ q.length) : requeuedQueue cfg q ci r = q := by
  simp only [requeuedQueue]
  rw [if_neg (Nat.not_lt.2 hge)]

theorem length_requeuedQueue_of_lt {T : Type} (cfg : GauntletConfig T)
    (q : List (GauntletQuestion T)) (ci r : Nat)
    (hlt : q.length < totalQuestions cfg * 3) (hci : ci < q.length) :
    (requeuedQueue cfg q ci r).length = q.length + 1 := by
  simp only [requeuedQueue]
  rw [if_pos hlt, List.getElem?_eq_getElem hci]
  simp [length_spliceInsert]

theorem length_requeuedQueue_le {T : Type} (cfg : GauntletConfig T)
    (q : List (GauntletQuestion T)) (ci r : Nat) :
    (requeuedQueue cfg q ci r).length ≤ q.length + 1 := by
  simp only [requeuedQueue]
  repeat' split
  all_goals simp [length_spliceInsert]

/-! ### Element access -/

theorem getElem?_listSwap {α : Type} (l : List α) (i j k : Nat)
    (hi : i < l.length) (hj : j < l.length) :
    (listSwap l i j)[k]? = if j = k then l[i]? else if i = k then l[j]? else l[k]? := by
  unfold listSwap
  rw [List.getElem?_eq_getElem hi, List.getElem?_eq_getElem hj]
  simp only [List.getElem?_set, List.length_set]
  by_cases hjk : j = k <;> by_cases hik : i = k <;>
    simp_all [List.getElem?_eq_getElem] <;> omega

theorem getElem?_spliceInsert_lt {α : Type} :
    ∀ (l : List α) (n : Nat) (a : α) (k : Nat), k < n → k < l.length →
      (spliceInsert l n a)[k]? = l[k]?
  | _, 0, _, k, hk, _ => absurd hk (Nat.not_lt_zero k)
  | [], _ + 1, _, k, _, hk2 => by simp at hk2
  | x :: xs, n + 1, a, 0, _, _ => by simp [spliceInsert]
  | x :: xs, n + 1, a, k + 1, hk, hk2 => by
    simpa [spliceInsert] using
      getElem?_spliceInsert_lt xs n a k (by omega) (by simpa using hk2)

theorem getElem?_setIndicesFrom {T : Type} :
    ∀ (k : Nat) (l : List (GauntletQuestion T)) (m : Nat),
      (setIndicesFrom k l)[m]? = (l[m]?).map fun q => { q with index := k + m }
  | _, [], m => by simp [setIndicesFrom]
  | k, q :: qs, 0 => by simp [setIndicesFrom]
  | k, q :: qs, m + 1 => by
    simp only [setIndicesFrom, List.getElem?_cons_succ]
    rw [getElem?_setIndicesFrom (k + 1) qs m]
    have : k + 1 + m = k + (m + 1) := by omega
    rw [this]

theorem qid_setIndicesFrom {T : Type} (getId : T → String)
    (k : Nat) (l : List (GauntletQuestion T)) (m : Nat) :
    qid getId (setIndicesFrom k l) m = qid getId l m := by
  unfold qid
  rw [getElem?_setIndicesFrom]
  cases l[m]? <;> rfl

/-! ### Forward-search lemmas -/

theorem findDiffAux_none {T : Type} (getId : T → String) (c : String) :
    ∀ (l : List (GauntletQuestion T)) (j : Nat),
      findDiffAux getId c l j = none → ∀ q ∈ l, getId q.item = c
  | [], _, _, q, hq => absurd hq (List.not_mem_nil q)
  | x :: xs, j, h, q, hq => by
    unfold findDiffAux at h
    split at h
    · exact absurd h (by simp)
    · rename_i hx
      rcases List.mem_cons.1 hq with rfl | hq'
      · exact not_not.1 hx
      · exact findDiffAux_none getId c xs (j + 1) h q hq'

theorem findDiffAux_some {T : Type} (getId : T → String) (c : String) :
    ∀ (l : List (GauntletQuestion T)) (j m : Nat),
      findDiffAux getId c l j = some m →
        j ≤ m ∧ ∃ q, l[m - j]? = some q ∧ getId q.item ≠ c
  | [], j, m, h => by simp [findDiffAux] at h
  | x :: xs, j, m, h => by
    unfold findDiffAux at h
    split at h
    · rename_i hx
      cases h
      exact ⟨Nat.le_refl j, x, by simp, hx⟩
    · obtain ⟨h1, q, h2, h3⟩ := findDiffAux_some getId c xs (j + 1) m h
      refine ⟨by omega, q, ?_, h3⟩
      have hmj : m - j = (m - (j + 1)) + 1 := by omega
      rw [hmj]
      simpa using h2

theorem findDiffFrom_none {T : Type} (getId : T → String) (c : String)
    (q : List (GauntletQuestion T)) (start : Nat)
    (h : findDiffFrom getId c q start = none) :
    ∀ j, start ≤ j → j < q.length → qid getId q j = some c := by
  intro j hj hjlen
  have hall := findDiffAux_none getId c (q.drop start) start h
  obtain ⟨e, he⟩ : ∃ e, q[j]? = some e := ⟨_, List.getElem?_eq_getElem hjlen⟩
  have hdrop : (q.drop start)[j - start]? = q[j]? := by
    rw [List.getElem?_drop]
    congr 1
    omega
  have hmem : e ∈ q.drop start := by
    have := hdrop.trans he
    exact List.getElem?_mem this
  have := hall e hmem
  simp [qid, he, this]

theorem findDiffFrom_some {T : Type} (getId : T → String) (c : String)
    (q : List (GauntletQuestion T)) (start m : Nat)
    (h : findDiffFrom getId c q start = some m) :
    start ≤ m ∧ ∃ e, q[m]? = some e ∧ getId e.item ≠ c := by
  obtain ⟨h1, e, h2, h3⟩ := findDiffAux_some getId c (q.drop start) start m h
  refine ⟨h1, e, ?_, h3⟩
  rw [List.getElem?_drop] at h2
  have : start + (m - start) = m := by omega
  rwa [this] at h2

/-! ### Canonical forms of the transition helpers -/

theorem recordAnswerTime_eq {T : Type} (s : GauntletState T) (now : Int) :
    recordAnswerTime s now =
      { s with
        answerTimes :=
          if 0 < s.lastAnswerTime ∧ 0 < now - s.lastAnswerTime then
            s.answerTimes ++ [now - s.lastAnswerTime]
          else s.answerTimes
        lastAnswerTime := now } := by
  unfold recordAnswerTime
  split <;> simp_all

theorem correctUpdatedState_eq {T : Type} (getId : T → String) (cfg : GauntletConfig T)
    (s : GauntletState T) (cq : GauntletQuestion T) (now : Int) :
    correctUpdatedState getId cfg s cq now =
      { s with
        answerTimes :=
          if 0 < s.lastAnswerTime ∧ 0 < now - s.lastAnswerTime then
            s.answerTimes ++ [now - s.lastAnswerTime]
          else s.answerTimes
        lastAnswerTime := now
        correctAnswers := s.correctAnswers + 1
        currentStreak := s.currentStreak + 1
        bestStreak := max s.bestStreak (s.currentStreak + 1)
        characterStats := statSet s.characterStats (getId cq.item)
          ((statLookup s.characterStats (getId cq.item)).1 + 1,
            (statLookup s.characterStats (getId cq.item)).2)
        lives :=
          if cfg.regenerates = true ∧ s.lives < (s.maxLives : Int) ∧
              s.regenThreshold ≤ s.correctSinceLastRegen + 1 then
            min (s.lives + 1) (s.maxLives : Int)
          else s.lives
        correctSinceLastRegen :=
          if cfg.regenerates = true ∧ s.lives < (s.maxLives : Int) then
            if s.regenThreshold ≤ s.correctSinceLastRegen + 1 then 0
            else s.correctSinceLastRegen + 1
          else s.correctSinceLastRegen
        livesRegenerated :=
          if cfg.regenerates = true ∧ s.lives < (s.maxLives : Int) ∧
              s.regenThreshold ≤ s.correctSinceLastRegen + 1 then
            s.livesRegenerated + 1
          else s.livesRegenerated } := by
  unfold correctUpdatedState
  rw [recordAnswerTime_eq]
  by_cases h1 : cfg.regenerates = true ∧ s.lives < (s.maxLives : Int) <;>
    by_cases h2 : s.regenThreshold ≤ s.correctSinceLastRegen + 1 <;>
      simp [h1, h2]

theorem wrongUpdatedState_eq {T : Type} (getId : T → String)
    (s : GauntletState T) (cq : GauntletQuestion T) (now : Int) :
    wrongUpdatedState getId s cq now =
      { s with
        answerTimes :=
          if 0 < s.lastAnswerTime ∧ 0 < now - s.lastAnswerTime then
            s.answerTimes ++ [now - s.lastAnswerTime]
          else s.answerTimes
        lastAnswerTime := now
        wrongAnswers := s.wrongAnswers + 1
        currentStreak := 0
        correctSinceLastRegen := 0
        characterStats := statSet s.characterStats (getId cq.item)
          ((statLookup s.characterStats (getId cq.item)).1,
            (statLookup s.characterStats (getId cq.item)).2 + 1)
        lives := s.lives - 1 } := by
  unfold wrongUpdatedState
  rw [recordAnswerTime_eq]

/-! ### Branch lemmas for the dispatch in advanceToNextQuestion -/

theorem advance_end_lives_zero {T : Type} (getId : T → String) (cfg : GauntletConfig T)
    (s0 s : GauntletState T) (now : Int) (r : Nat) (nl : Int) (wc : Bool)
    (nc nw qc nb ncs : Nat) (h1 : nl ≤ 0) :
    advanceToNextQuestion getId cfg s0 s now r nl wc nc nw qc nb ncs =
      { s with
        phase := Phase.results
        sessionStats := some (endGameStats cfg s0 now false nl nc nw qc nb ncs) } := by
  unfold advanceToNextQuestion
  rw [if_pos h1]

theorem advance_end_completed {T : Type} (getId : T → String) (cfg : GauntletConfig T)
    (s0 s : GauntletState T) (now : Int) (r : Nat) (nl : Int)
    (nc nw qc nb ncs : Nat) (h1 : ¬ nl ≤ 0) (h2 : totalQuestions cfg ≤ nc) :
    advanceToNextQuestion getId cfg s0 s now r nl true nc nw qc nb ncs =
      { s with
        phase := Phase.results
        sessionStats := some (endGameStats cfg s0 now true nl nc nw qc nb ncs) } := by
  unfold advanceToNextQuestion
  rw [if_neg h1]
  simp [h2]

theorem advance_continue_correct {T : Type} (getId : T → String) (cfg : GauntletConfig T)
    (s0 s : GauntletState T) (now : Int) (r : Nat) (nl : Int)
    (nc nw qc nb ncs : Nat) (h1 : ¬ nl ≤ 0) (h2 : ¬ totalQuestions cfg ≤ nc) :
    advanceToNextQuestion getId cfg s0 s now r nl true nc nw qc nb ncs =
      { s with
        questionQueue := ensureNextQuestionIsDifferent getId s.questionQueue s.currentIndex
        currentIndex := s.currentIndex + 1 } := by
  unfold advanceToNextQuestion
  rw [if_neg h1]
  simp [h2]

theorem advance_continue_wrong {T : Type} (getId : T → String) (cfg : GauntletConfig T)
    (s0 s : GauntletState T) (now : Int) (r : Nat) (nl : Int)
    (nc nw qc nb ncs : Nat) (h1 : ¬ nl ≤ 0) :
    advanceToNextQuestion getId cfg s0 s now r nl false nc nw qc nb ncs =
      { s with
        questionQueue := ensureNextQuestionIsDifferent getId
          (requeuedQueue cfg s.questionQueue s.currentIndex r) s.currentIndex
        currentIndex := s.currentIndex + 1 } := by
  unfold advanceToNextQuestion
  rw [if_neg h1]
  rfl

/-! ### Branch lemmas for submitAnswer -/

theorem submitAnswer_not_playing {T : Type} (getId : T → String) (cfg : GauntletConfig T)
    (s : GauntletState T) (isCorrect : Bool) (now : Int) (r : Nat)
    (h : s.phase ≠ Phase.playing) :
    submitAnswer getId cfg s isCorrect now r = s := by
  unfold submitAnswer
  rw [if_pos h]

theorem submitAnswer_no_current {T : Type} (getId : T → String) (cfg : GauntletConfig T)
    (s : GauntletState T) (isCorrect : Bool) (now : Int) (r : Nat)
    (h : currentQuestion s = none) :
    submitAnswer getId cfg s isCorrect now r = s := by
  unfold submitAnswer
  split
  · rfl
  · rw [h]

theorem submitAnswer_correct_eq {T : Type} (getId : T → String) (cfg : GauntletConfig T)
    (s : GauntletState T) (now : Int) (r : Nat) (cq : GauntletQuestion T)
    (hphase : s.phase = Phase.playing) (hcq : currentQuestion s = some cq) :
    submitAnswer getId cfg s true now r =
      advanceToNextQuestion getId cfg s (correctUpdatedState getId cfg s cq now) now r
        s.lives true (s.correctAnswers + 1) s.wrongAnswers (s.currentIndex + 1)
        (max s.bestStreak (s.currentStreak + 1)) (s.currentStreak + 1) := by
  unfold submitAnswer
  rw [if_neg (by simp [hphase]), hcq]
  rfl

theorem submitAnswer_wrong_eq {T : Type} (getId : T → String) (cfg : GauntletConfig T)
    (s : GauntletState T) (now : Int) (r : Nat) (cq : GauntletQuestion T)
    (hphase : s.phase = Phase.playing) (hcq : currentQuestion s = some cq) :
    submitAnswer getId cfg s false now r =
      advanceToNextQuestion getId cfg s (wrongUpdatedState getId s cq now) now r
        (s.lives - 1) false s.correctAnswers (s.wrongAnswers + 1) (s.currentIndex + 1)
        s.bestStreak 0 := by
  unfold submitAnswer
  rw [if_neg (by simp [hphase]), hcq]
  rfl

/-! ### The stabilization pass leaves repeats only in a uniform tail -/

theorem qid_listSwap {T : Type} (getId : T → String) (q : List (GauntletQuestion T))
    (i j k : Nat) (hi : i < q.length) (hj : j < q.length) :
    qid getId (listSwap q i j) k =
      if j = k then qid getId q i else if i = k then qid getId q j else qid getId q k := by
  unfold qid
  rw [getElem?_listSwap q i j k hi hj]
  split
  · rfl
  · split <;> rfl

theorem stabilizeStep_eq_of_oob {T : Type} (getId : T → String)
    (q : List (GauntletQuestion T)) (i : Nat) (h : q[i + 1]? = none) :
    stabilizeStep getId q i = q := by
  cases hqi : q[i]? <;> (unfold stabilizeStep; rw [hqi, h])

theorem stabilizeStep_eq_of_ne {T : Type} (getId : T → String)
    (q : List (GauntletQuestion T)) (i : Nat) (qi qn : GauntletQuestion T)
    (hqi : q[i]? = some qi) (hqn : q[i + 1]? = some qn)
    (hne : ¬ getId qi.item = getId qn.item) :
    stabilizeStep getId q i = q := by
  unfold stabilizeStep
  rw [hqi, hqn]
  simp [hne]

theorem stabilizeStep_eq_of_eq_none {T : Type} (getId : T → String)
    (q : List (GauntletQuestion T)) (i : Nat) (qi qn : GauntletQuestion T)
    (hqi : q[i]? = some qi) (hqn : q[i + 1]? = some qn)
    (heq : getId qi.item = getId qn.item)
    (hfind : findDiffFrom getId (getId qi.item) q (i + 2) = none) :
    stabilizeStep getId q i = q := by
  unfold stabilizeStep
  rw [hqi, hqn]
  rw [heq] at hfind
  simp [heq, hfind]

theorem stabilizeStep_eq_of_eq_some {T : Type} (getId : T → String)
    (q : List (GauntletQuestion T)) (i : Nat) (qi qn : GauntletQuestion T) (sw : Nat)
    (hqi : q[i]? = some qi) (hqn : q[i + 1]? = some qn)
    (heq : getId qi.item = getId qn.item)
    (hfind : findDiffFrom getId (getId qi.item) q (i + 2) = some sw) :
    stabilizeStep getId q i = listSwap q (i + 1) sw := by
  unfold stabilizeStep
  rw [hqi, hqn]
  rw [heq] at hfind
  simp [heq, hfind]

theorem stabilizeStep_inv {T : Type} (getId : T → String)
    (q : List (GauntletQuestion T)) (i : Nat) (h : StabInv getId q i) :
    StabInv getId (stabilizeStep getId q i) (i + 1) := by
  cases hqn : q[i + 1]? with
  | none =>
    rw [stabilizeStep_eq_of_oob getId q i hqn]
    have hlen : q.length ≤ i + 1 := by
      by_contra hc
      rw [List.getElem?_eq_getElem (by omega)] at hqn
      simp at hqn
    cases h with
    | inl hadj => exact Or.inl fun k hk1 hk2 => hadj k hk1 (by omega)
    | inr hex =>
      obtain ⟨k, h1, h2, h3⟩ := hex
      exact Or.inr ⟨k, h1, h2, by omega⟩
  | some qn =>
    have hi1 : i + 1 < q.length := (List.getElem?_eq_some.1 hqn).1
    have hi : i < q.length := by omega
    obtain ⟨qi, hqi⟩ : ∃ e, q[i]? = some e := ⟨q[i], List.getElem?_eq_getElem hi⟩
    by_cases heq : getId qi.item = getId qn.item
    · cases hfind : findDiffFrom getId (getId qi.item) q (i + 2) with
      | none =>
        rw [stabilizeStep_eq_of_eq_none getId q i qi qn hqi hqn heq hfind]
        have hqidi : qid getId q i = some (getId qi.item) := by simp [qid, hqi]
        have hconst : ConstFrom getId q i := by
          intro m hm hmlen
          rcases Nat.lt_or_ge m (i + 2) with hm2 | hm2
          · rcases (by omega : m = i ∨ m = i + 1) with rfl | rfl
            · rfl
            · rw [hqidi]
              simp [qid, hqn, heq]
          · rw [findDiffFrom_none getId (getId qi.item) q (i + 2) hfind m hm2 hmlen, hqidi]
        cases h with
        | inl hadj => exact Or.inr ⟨i, hadj, hconst, by omega⟩
        | inr hex =>
          obtain ⟨k, h1, h2, h3⟩ := hex
          exact Or.inr ⟨k, h1, h2, by omega⟩
      | some sw =>
        rw [stabilizeStep_eq_of_eq_some getId q i qi qn sw hqi hqn heq hfind]
        obtain ⟨hsw2, e, hesw, hene⟩ := findDiffFrom_some getId (getId qi.item) q (i + 2) sw hfind
        have hswlen : sw < q.length := (List.getElem?_eq_some.1 hesw).1
        have hadj : AdjDistinctBelow getId q i := by
          cases h with
          | inl hadj => exact hadj
          | inr hex =>
            obtain ⟨k, h1, h2, h3⟩ := hex
            exfalso
            have e1 : qid getId q sw = qid getId q k := h2 sw (by omega) hswlen
            have e2 : qid getId q i = qid getId q k := h2 i (by omega) hi
            have e3 : qid getId q sw = some (getId e.item) := by simp [qid, hesw]
            have e4 : qid getId q i = some (getId qi.item) := by simp [qid, hqi]
            rw [e3] at e1
            rw [e4] at e2
            rw [← e2] at e1
            simp only [Option.some.injEq] at e1
            exact hene e1
        have hqsw : ∀ m, m ≠ i + 1 → m ≠ sw →
            qid getId (listSwap q (i + 1) sw) m = qid getId q m := by
          intro m h1 h2
          rw [qid_listSwap getId q (i + 1) sw m hi1 hswlen,
            if_neg fun hh => h2 hh.symm, if_neg fun hh => h1 hh.symm]
        refine Or.inl ?_
        intro k hk1 hk2
        rw [length_listSwap] at hk1
        rcases (by omega : k < i ∨ k = i) with hk | rfl
        · rw [hqsw k (by omega) (by omega), hqsw (k + 1) (by omega) (by omega)]
          exact hadj k hk1 hk
        · rw [hqsw k (by omega) (by omega),
            qid_listSwap getId q (k + 1) sw (k + 1) hi1 hswlen,
            if_neg (by omega), if_pos rfl]
          unfold qid
          rw [hqi, hesw]
          intro hc
          simp at hc
          exact hene hc.symm
    · rw [stabilizeStep_eq_of_ne getId q i qi qn hqi hqn heq]
      cases h with
      | inl hadj =>
        refine Or.inl ?_
        intro k hk1 hk2
        rcases (by omega : k < i ∨ k = i) with hk | rfl
        · exact hadj k hk1 hk
        · unfold qid
          rw [hqi, hqn]
          intro hc
          simp at hc
          exact heq hc
      | inr hex =>
        obtain ⟨k, h1, h2, h3⟩ := hex
        exact Or.inr ⟨k, h1, h2, by omega⟩

theorem stabilizeLoop_post {T : Type} (getId : T → String) :
    ∀ (n : Nat) (q : List (GauntletQuestion T)) (i : Nat),
      q.length ≤ i + n + 1 → StabInv getId q i →
        StabPost getId (stabilizeLoop getId q i n)
  | 0, q, i, hlen, h => by
    simp only [stabilizeLoop]
    cases h with
    | inl hadj => exact Or.inl fun k hk1 hk2 => hadj k hk1 (by omega)
    | inr hex =>
      obtain ⟨k, h1, h2, _⟩ := hex
      exact Or.inr ⟨k, h1, h2⟩
  | n + 1, q, i, hlen, h => by
    simp only [stabilizeLoop]
    exact stabilizeLoop_post getId n (stabilizeStep getId q i) (i + 1)
      (by rw [length_stabilizeStep]; omega) (stabilizeStep_inv getId q i h)

theorem stabilize_post {T : Type} (getId : T → String)
    (q : List (GauntletQuestion T)) :
    StabPost getId (stabilizeQueueNoImmediateRepeats getId q) := by
  unfold stabilizeQueueNoImmediateRepeats
  exact stabilizeLoop_post getId (q.length - 1) q 0 (by omega)
    (Or.inl fun k _ hk => absurd hk (Nat.not_lt_zero k))

theorem stabPost_pair_tail {T : Type} {getId : T → String}
    {q : List (GauntletQuestion T)} (hp : StabPost getId q) :
    ∀ i, qid getId q i = qid getId q (i + 1) →
      ∀ j, i ≤ j → j < q.length → qid getId q j = qid getId q i := by
  intro i heq j hij hj
  by_cases hi1 : i + 1 < q.length
  · cases hp with
    | inl hadj => exact absurd heq (hadj i hi1 (by omega))
    | inr hex =>
      obtain ⟨k, hadj, hconst⟩ := hex
      have hki : k ≤ i := by
        by_contra hlt
        exact hadj i hi1 (by omega) heq
      have h1 := hconst j (by omega) hj
      have h2 := hconst i hki (by omega)
      rw [h1, h2]
  · have hnone : qid getId q (i + 1) = none := by
      unfold qid
      rw [List.getElem?_eq_none (by omega)]
      rfl
    rw [hnone] at heq
    have : q.length ≤ i := by
      by_contra hlt
      unfold qid at heq
      rw [List.getElem?_eq_getElem (by omega)] at heq
      simp at heq
    omega

/-- Transfer of the tail property through the final index reassignment of
`generateQuestionQueue`. -/
theorem generateQuestionQueue_pair_tail {T : Type} (getId : T → String)
    (items : List T) (repetitions : Nat) (js : List Nat) :
    ∀ i, qid getId (generateQuestionQueue getId items repetitions js) i =
        qid getId (generateQuestionQueue getId items repetitions js) (i + 1) →
      ∀ j, i ≤ j → j < (generateQuestionQueue getId items repetitions js).length →
        qid getId (generateQuestionQueue getId items repetitions js) j =
          qid getId (generateQuestionQueue getId items repetitions js) i := by
  intro i heq j hij hj
  unfold generateQuestionQueue at *
  rw [qid_setIndicesFrom, qid_setIndicesFrom] at heq
  rw [qid_setIndicesFrom, qid_setIndicesFrom]
  rw [length_setIndicesFrom] at hj
  exact stabPost_pair_tail
    (stabilize_post getId (fisherYatesShuffle (buildQueue items repetitions) js))
    i heq j hij hj

/-! ### What ensureNextQuestionIsDifferent guarantees -/

theorem ensureNext_eq_of_oob {T : Type} (getId : T → String)
    (q : List (GauntletQuestion T)) (i : Nat) (h : q[i + 1]? = none) :
    ensureNextQuestionIsDifferent getId q i = q := by
  simp only [ensureNextQuestionIsDifferent]
  rw [h]

theorem ensureNext_eq_of_ne {T : Type} (getId : T → String)
    (q : List (GauntletQuestion T)) (i : Nat) (qa qn : GauntletQuestion T)
    (hqa : q[i]? = some qa) (hqn : q[i + 1]? = some qn)
    (hne : ¬ getId qa.item = getId qn.item) :
    ensureNextQuestionIsDifferent getId q i = q := by
  simp only [ensureNextQuestionIsDifferent]
  rw [hqn, hqa]
  simp [hne]

theorem ensureNext_eq_of_eq_none {T : Type} (getId : T → String)
    (q : List (GauntletQuestion T)) (i : Nat) (qa qn : GauntletQuestion T)
    (hqa : q[i]? = some qa) (hqn : q[i + 1]? = some qn)
    (heq : getId qa.item = getId qn.item)
    (hfind : findDiffFrom getId (getId qa.item) q (i + 2) = none) :
    ensureNextQuestionIsDifferent getId q i = q := by
  simp only [ensureNextQuestionIsDifferent]
  rw [hqn, hqa]
  rw [heq] at hfind
  simp [heq, hfind]

theorem ensureNext_eq_of_eq_some {T : Type} (getId : T → String)
    (q : List (GauntletQuestion T)) (i : Nat) (qa qn : GauntletQuestion T) (sw : Nat)
    (hqa : q[i]? = some qa) (hqn : q[i + 1]? = some qn)
    (heq : getId qa.item = getId qn.item)
    (hfind : findDiffFrom getId (getId qa.item) q (i + 2) = some sw) :
    ensureNextQuestionIsDifferent getId q i = listSwap q (i + 1) sw := by
  simp only [ensureNextQuestionIsDifferent]
  rw [hqn, hqa]
  rw [heq] at hfind
  simp [heq, hfind]

/-- Either the entry that ends up right after the answered slot has a
different identity, or the queue is returned unchanged and every entry
after the answered slot shares the answered identity (the documented
fallback). -/
theorem ensureNext_spec {T : Type} (getId : T → String)
    (q : List (GauntletQuestion T)) (i : Nat) (qa : GauntletQuestion T)
    (hqa : q[i]? = some qa) :
    (∀ e, (ensureNextQuestionIsDifferent getId q i)[i + 1]? = some e →
        getId e.item ≠ getId qa.item) ∨
    (ensureNextQuestionIsDifferent getId q i = q ∧
      ∀ j, i < j → j < q.length → qid getId q j = some (getId qa.item)) := by
  cases hqn : q[i + 1]? with
  | none =>
    rw [ensureNext_eq_of_oob getId q i hqn]
    exact Or.inl fun e he => Option.noConfusion (hqn.symm.trans he)
  | some qn =>
    have hi1 : i + 1 < q.length := (List.getElem?_eq_some.1 hqn).1
    by_cases heq : getId qa.item = getId qn.item
    · cases hfind : findDiffFrom getId (getId qa.item) q (i + 2) with
      | none =>
        rw [ensureNext_eq_of_eq_none getId q i qa qn hqa hqn heq hfind]
        refine Or.inr ⟨rfl, fun j hj hjlen => ?_⟩
        rcases Nat.lt_or_ge j (i + 2) with hj2 | hj2
        · have : j = i + 1 := by omega
          subst this
          simp [qid, hqn, heq]
        · exact findDiffFrom_none getId (getId qa.item) q (i + 2) hfind j hj2 hjlen
      | some sw =>
        obtain ⟨hsw2, e0, hesw, hene⟩ :=
          findDiffFrom_some getId (getId qa.item) q (i + 2) sw hfind
        have hswlen : sw < q.length := (List.getElem?_eq_some.1 hesw).1
        rw [ensureNext_eq_of_eq_some getId q i qa qn sw hqa hqn heq hfind]
        refine Or.inl fun e he => ?_
        rw [getElem?_listSwap q (i + 1) sw (i + 1) hi1 hswlen,
          if_neg (by omega), if_pos rfl, hesw] at he
        injection he with he'
        subst he'
        exact fun hc => hene hc
    · rw [ensureNext_eq_of_ne getId q i qa qn hqa hqn heq]
      refine Or.inl fun e he => ?_
      rw [hqn] at he
      injection he with he'
      subst he'
      exact fun hc => heq hc.symm

/-! ### The session invariant -/

theorem currentIndex_lt_of_current {T : Type} {s : GauntletState T}
    {cq : GauntletQuestion T} (hcq : currentQuestion s = some cq) :
    s.currentIndex < s.questionQueue.length :=
  (List.getElem?_eq_some.1 hcq).1

theorem recordedTimes_pos {T : Type} (s : GauntletState T) (now : Int)
    (h : ∀ t ∈ s.answerTimes, 0 < t) :
    ∀ t ∈ (if 0 < s.lastAnswerTime ∧ 0 < now - s.lastAnswerTime then
        s.answerTimes ++ [now - s.lastAnswerTime] else s.answerTimes), 0 < t := by
  split
  · rename_i hcond
    intro t ht
    rcases List.mem_append.1 ht with ht' | ht'
    · exact h t ht'
    · rw [List.mem_singleton.1 ht']
      exact hcond.2
  · exact h

theorem handleStart_eq {T : Type} (getId : T → String) (cfg : GauntletConfig T)
    (s : GauntletState T) (now : Int) (js : List Nat) :
    handleStart getId cfg s now js =
      { s with
        phase := Phase.playing
        questionQueue := generateQuestionQueue getId cfg.items cfg.repetitions js
        currentIndex := 0
        lives := (cfg.maxLives : Int)
        maxLives := cfg.maxLives
        correctSinceLastRegen := 0
        regenThreshold := calculateRegenThreshold
          (generateQuestionQueue getId cfg.items cfg.repetitions js).length
        correctAnswers := 0
        wrongAnswers := 0
        currentStreak := 0
        bestStreak := 0
        livesRegenerated := 0
        characterStats := []
        startTime := now
        answerTimes := []
        lastAnswerTime := now } := rfl

theorem handleStart_invariant {T : Type} (getId : T → String) (cfg : GauntletConfig T)
    (s0 : GauntletState T) (now : Int) (js : List Nat) (hLives : 1 ≤ cfg.maxLives) :
    SessionInvariant cfg (handleStart getId cfg s0 now js) := by
  rw [handleStart_eq]
  refine ⟨?_, ?_, ?_, ?_, ?_⟩ <;> dsimp only
  · exact Int.natCast_nonneg _
  · exact le_refl _
  · intro _
    exact_mod_cast hLives
  · rw [length_generateQuestionQueue]
    calc cfg.items.length * cfg.repetitions
        = totalQuestions cfg * 1 := by rw [Nat.mul_one]; rfl
      _ ≤ totalQuestions cfg * 3 := Nat.mul_le_mul_left _ (by omega)
  · simp

theorem requeuedQueue_length_le {T : Type} (cfg : GauntletConfig T)
    (q : List (GauntletQuestion T)) (ci r : Nat)
    (h : q.length ≤ totalQuestions cfg * 3) :
    (requeuedQueue cfg q ci r).length ≤ totalQuestions cfg * 3 := by
  by_cases hlt : q.length < totalQuestions cfg * 3
  · calc (requeuedQueue cfg q ci r).length
        ≤ q.length + 1 := length_requeuedQueue_le cfg q ci r
      _ ≤ totalQuestions cfg * 3 := by omega
  · rw [requeuedQueue_of_ge cfg q ci r (by omega)]
    exact h

theorem submitAnswer_invariant {T : Type} (getId : T → String) (cfg : GauntletConfig T)
    (s : GauntletState T) (h : SessionInvariant cfg s) (isCorrect : Bool)
    (now : Int) (r : Nat) :
    SessionInvariant cfg (submitAnswer getId cfg s isCorrect now r) := by
  by_cases hphase : s.phase = Phase.playing
  · cases hcq : currentQuestion s with
    | none => rw [submitAnswer_no_current getId cfg s isCorrect now r hcq]; exact h
    | some cq =>
      obtain ⟨h0, h1, h2, h3, h4⟩ := h
      have hplay := h2 hphase
      have hci := currentIndex_lt_of_current hcq
      cases isCorrect with
      | false =>
        rw [submitAnswer_wrong_eq getId cfg s now r cq hphase hcq]
        by_cases hl : s.lives - 1 ≤ 0
        · rw [advance_end_lives_zero getId cfg s (wrongUpdatedState getId s cq now)
            now r (s.lives - 1) false s.correctAnswers (s.wrongAnswers + 1)
            (s.currentIndex + 1) s.bestStreak 0 hl]
          rw [wrongUpdatedState_eq]
          refine ⟨?_, ?_, ?_, ?_, ?_⟩ <;> dsimp only
          · omega
          · omega
          · intro hx
            exact absurd hx (by decide)
          · exact h3
          · exact recordedTimes_pos s now h4
        · rw [advance_continue_wrong getId cfg s (wrongUpdatedState getId s cq now)
            now r (s.lives - 1) s.correctAnswers (s.wrongAnswers + 1)
            (s.currentIndex + 1) s.bestStreak 0 hl]
          rw [wrongUpdatedState_eq]
          refine ⟨?_, ?_, ?_, ?_, ?_⟩ <;> dsimp only
          · omega
          · omega
          · intro _
            omega
          · rw [length_ensureNextQuestionIsDifferent]
            exact requeuedQueue_length_le cfg s.questionQueue s.currentIndex r h3
          · exact recordedTimes_pos s now h4
      | true =>
        rw [submitAnswer_correct_eq getId cfg s now r cq hphase hcq]
        have hl : ¬ s.lives ≤ 0 := by omega
        by_cases hc : totalQuestions cfg ≤ s.correctAnswers + 1
        · rw [advance_end_completed getId cfg s (correctUpdatedState getId cfg s cq now)
            now r s.lives (s.correctAnswers + 1) s.wrongAnswers (s.currentIndex + 1)
            (max s.bestStreak (s.currentStreak + 1)) (s.currentStreak + 1) hl hc]
          rw [correctUpdatedState_eq]
          refine ⟨?_, ?_, ?_, ?_, ?_⟩ <;> dsimp only
          · split <;> omega
          · split <;> omega
          · intro hx
            exact absurd hx (by decide)
          · exact h3
          · exact recordedTimes_pos s now h4
        · rw [advance_continue_correct getId cfg s (correctUpdatedState getId cfg s cq now)
            now r s.lives (s.correctAnswers + 1) s.wrongAnswers (s.currentIndex + 1)
            (max s.bestStreak (s.currentStreak + 1)) (s.currentStreak + 1) hl hc]
          rw [correctUpdatedState_eq]
          refine ⟨?_, ?_, ?_, ?_, ?_⟩ <;> dsimp only
          · split <;> omega
          · split <;> omega
          · intro _
            split <;> omega
          · rw [length_ensureNextQuestionIsDifferent]
            exact h3
          · exact recordedTimes_pos s now h4
  · rw [submitAnswer_not_playing getId cfg s isCorrect now r hphase]
    exact h

/-- Every reachable session state satisfies the invariant. -/
theorem reachable_invariant {T : Type} {getId : T → String} {cfg : GauntletConfig T}
    {s : GauntletState T} (h : Reachable getId cfg s) : SessionInvariant cfg s := by
  induction h with
  | start s0 now js hItems hReps hLives =>
    exact handleStart_invariant getId cfg s0 now js hLives
  | step hs isCorrect now r ih =>
    exact submitAnswer_invariant getId cfg _ ih isCorrect now r

/-! ### Field projections of a full submitAnswer transition -/

theorem submitAnswer_wrong_proj {T : Type} (getId : T → String) (cfg : GauntletConfig T)
    (s : GauntletState T) (now : Int) (r : Nat) (cq : GauntletQuestion T)
    (hphase : s.phase = Phase.playing) (hcq : currentQuestion s = some cq) :
    (submitAnswer getId cfg s false now r).lives = s.lives - 1 ∧
    (submitAnswer getId cfg s false now r).correctSinceLastRegen = 0 ∧
    (submitAnswer getId cfg s false now r).answerTimes =
      (if 0 < s.lastAnswerTime ∧ 0 < now - s.lastAnswerTime then
        s.answerTimes ++ [now - s.lastAnswerTime] else s.answerTimes) ∧
    (submitAnswer getId cfg s false now r).lastAnswerTime = now ∧
    (submitAnswer getId cfg s false now r).maxLives = s.maxLives := by
  rw [submitAnswer_wrong_eq getId cfg s now r cq hphase hcq]
  by_cases hl : s.lives - 1 ≤ 0
  · rw [advance_end_lives_zero getId cfg s (wrongUpdatedState getId s cq now) now r
      (s.lives - 1) false s.correctAnswers (s.wrongAnswers + 1) (s.currentIndex + 1)
      s.bestStreak 0 hl, wrongUpdatedState_eq]
    exact ⟨rfl, rfl, rfl, rfl, rfl⟩
  · rw [advance_continue_wrong getId cfg s (wrongUpdatedState getId s cq now) now r
      (s.lives - 1) s.correctAnswers (s.wrongAnswers + 1) (s.currentIndex + 1)
      s.bestStreak 0 hl, wrongUpdatedState_eq]
    exact ⟨rfl, rfl, rfl, rfl, rfl⟩

theorem submitAnswer_correct_proj {T : Type} (getId : T → String) (cfg : GauntletConfig T)
    (s : GauntletState T) (now : Int) (r : Nat) (cq : GauntletQuestion T)
    (hphase : s.phase = Phase.playing) (hcq : currentQuestion s = some cq) :
    (submitAnswer getId cfg s true now r).lives =
      (if cfg.regenerates = true ∧ s.lives < (s.maxLives : Int) ∧
          s.regenThreshold ≤ s.correctSinceLastRegen + 1 then
        min (s.lives + 1) (s.maxLives : Int)
      else s.lives) ∧
    (submitAnswer getId cfg s true now r).correctSinceLastRegen =
      (if cfg.regenerates = true ∧ s.lives < (s.maxLives : Int) then
        if s.regenThreshold ≤ s.correctSinceLastRegen + 1 then 0
        else s.correctSinceLastRegen + 1
      else s.correctSinceLastRegen) ∧
    (submitAnswer getId cfg s true now r).livesRegenerated =
      (if cfg.regenerates = true ∧ s.lives < (s.maxLives : Int) ∧
          s.regenThreshold ≤ s.correctSinceLastRegen + 1 then
        s.livesRegenerated + 1
      else s.livesRegenerated) ∧
    (submitAnswer getId cfg s true now r).answerTimes =
      (if 0 < s.lastAnswerTime ∧ 0 < now - s.lastAnswerTime then
        s.answerTimes ++ [now - s.lastAnswerTime] else s.answerTimes) ∧
    (submitAnswer getId cfg s true now r).lastAnswerTime = now ∧
    (submitAnswer getId cfg s true now r).maxLives = s.maxLives := by
  rw [submitAnswer_correct_eq getId cfg s now r cq hphase hcq]
  by_cases hl : s.lives ≤ 0
  · rw [advance_end_lives_zero getId cfg s (correctUpdatedState getId cfg s cq now) now r
      s.lives true (s.correctAnswers + 1) s.wrongAnswers (s.currentIndex + 1)
      (max s.bestStreak (s.currentStreak + 1)) (s.currentStreak + 1) hl,
      correctUpdatedState_eq]
    exact ⟨rfl, rfl, rfl, rfl, rfl, rfl⟩
  · by_cases hc : totalQuestions cfg ≤ s.correctAnswers + 1
    · rw [advance_end_completed getId cfg s (correctUpdatedState getId cfg s cq now) now r
        s.lives (s.correctAnswers + 1) s.wrongAnswers (s.currentIndex + 1)
        (max s.bestStreak (s.currentStreak + 1)) (s.currentStreak + 1) hl hc,
        correctUpdatedState_eq]
      exact ⟨rfl, rfl, rfl, rfl, rfl, rfl⟩
    · rw [advance_continue_correct getId cfg s (correctUpdatedState getId cfg s cq now) now r
        s.lives (s.correctAnswers + 1) s.wrongAnswers (s.currentIndex + 1)
        (max s.bestStreak (s.currentStreak + 1)) (s.currentStreak + 1) hl hc,
        correctUpdatedState_eq]
      exact ⟨rfl, rfl, rfl, rfl, rfl, rfl⟩

theorem submitAnswer_correct_queue_length {T : Type} (getId : T → String)
    (cfg : GauntletConfig T) (s : GauntletState T) (now : Int) (r : Nat)
    (cq : GauntletQuestion T)
    (hphase : s.phase = Phase.playing) (hcq : currentQuestion s = some cq) :
    (submitAnswer getId cfg s true now r).questionQueue.length =
      s.questionQueue.length := by
  rw [submitAnswer_correct_eq getId cfg s now r cq hphase hcq]
  by_cases hl : s.lives ≤ 0
  · rw [advance_end_lives_zero getId cfg s (correctUpdatedState getId cfg s cq now) now r
      s.lives true (s.correctAnswers + 1) s.wrongAnswers (s.currentIndex + 1)
      (max s.bestStreak (s.currentStreak + 1)) (s.currentStreak + 1) hl,
      correctUpdatedState_eq]
  · by_cases hc : totalQuestions cfg ≤ s.correctAnswers + 1
    · rw [advance_end_completed getId cfg s (correctUpdatedState getId cfg s cq now) now r
        s.lives (s.correctAnswers + 1) s.wrongAnswers (s.currentIndex + 1)
        (max s.bestStreak (s.currentStreak + 1)) (s.currentStreak + 1) hl hc,
        correctUpdatedState_eq]
    · rw [advance_continue_correct getId cfg s (correctUpdatedState getId cfg s cq now) now r
        s.lives (s.correctAnswers + 1) s.wrongAnswers (s.currentIndex + 1)
        (max s.bestStreak (s.currentStreak + 1)) (s.currentStreak + 1) hl hc,
        correctUpdatedState_eq]
      simp only [length_ensureNextQuestionIsDifferent]

theorem submitAnswer_wrong_queue_capped {T : Type} (getId : T → String)
    (cfg : GauntletConfig T) (s : GauntletState T) (now : Int) (r : Nat)
    (cq : GauntletQuestion T)
    (hphase : s.phase = Phase.playing) (hcq : currentQuestion s = some cq)
    (hcap : totalQuestions cfg * 3 ≤ s.questionQueue.length) :
    (submitAnswer getId cfg s false now r).questionQueue.length =
      s.questionQueue.length := by
  rw [submitAnswer_wrong_eq getId cfg s now r cq hphase hcq]
  by_cases hl : s.lives - 1 ≤ 0
  · rw [advance_end_lives_zero getId cfg s (wrongUpdatedState getId s cq now) now r
      (s.lives - 1) false s.correctAnswers (s.wrongAnswers + 1) (s.currentIndex + 1)
      s.bestStreak 0 hl, wrongUpdatedState_eq]
  · rw [advance_continue_wrong getId cfg s (wrongUpdatedState getId s cq now) now r
      (s.lives - 1) s.correctAnswers (s.wrongAnswers + 1) (s.currentIndex + 1)
      s.bestStreak 0 hl, wrongUpdatedState_eq]
    simp only [length_ensureNextQuestionIsDifferent]
    rw [requeuedQueue_of_ge cfg s.questionQueue s.currentIndex r hcap]

theorem submitAnswer_wrong_end {T : Type} (getId : T → String) (cfg : GauntletConfig T)
    (s : GauntletState T) (now : Int) (r : Nat) (cq : GauntletQuestion T)
    (hphase : s.phase = Phase.playing) (hcq : currentQuestion s = some cq)
    (hl : s.lives - 1 ≤ 0) :
    (submitAnswer getId cfg s false now r).phase = Phase.results ∧
    (submitAnswer getId cfg s false now r).sessionStats =
      some (endGameStats cfg s now false (s.lives - 1) s.correctAnswers
        (s.wrongAnswers + 1) (s.currentIndex + 1) s.bestStreak 0) := by
  rw [submitAnswer_wrong_eq getId cfg s now r cq hphase hcq,
    advance_end_lives_zero getId cfg s (wrongUpdatedState getId s cq now) now r
      (s.lives - 1) false s.correctAnswers (s.wrongAnswers + 1) (s.currentIndex + 1)
      s.bestStreak 0 hl]
  exact ⟨rfl, rfl⟩

theorem submitAnswer_wrong_continue_phase {T : Type} (getId : T → String)
    (cfg : GauntletConfig T) (s : GauntletState T) (now : Int) (r : Nat)
    (cq : GauntletQuestion T)
    (hphase : s.phase = Phase.playing) (hcq : currentQuestion s = some cq)
    (hl : ¬ s.lives - 1 ≤ 0) :
    (submitAnswer getId cfg s false now r).phase = Phase.playing := by
  rw [submitAnswer_wrong_eq getId cfg s now r cq hphase hcq,
    advance_continue_wrong getId cfg s (wrongUpdatedState getId s cq now) now r
      (s.lives - 1) s.correctAnswers (s.wrongAnswers + 1) (s.currentIndex + 1)
      s.bestStreak 0 hl, wrongUpdatedState_eq]
  exact hphase

theorem submitAnswer_correct_end_completed {T : Type} (getId : T → String)
    (cfg : GauntletConfig T) (s : GauntletState T) (now : Int) (r : Nat)
    (cq : GauntletQuestion T)
    (hphase : s.phase = Phase.playing) (hcq : currentQuestion s = some cq)
    (hl : ¬ s.lives ≤ 0) (hc : totalQuestions cfg ≤ s.correctAnswers + 1) :
    (submitAnswer getId cfg s true now r).phase = Phase.results ∧
    (submitAnswer getId cfg s true now r).sessionStats =
      some (endGameStats cfg s now true s.lives (s.correctAnswers + 1) s.wrongAnswers
        (s.currentIndex + 1) (max s.bestStreak (s.currentStreak + 1))
        (s.currentStreak + 1)) := by
  rw [submitAnswer_correct_eq getId cfg s now r cq hphase hcq,
    advance_end_completed getId cfg s (correctUpdatedState getId cfg s cq now) now r
      s.lives (s.correctAnswers + 1) s.wrongAnswers (s.currentIndex + 1)
      (max s.bestStreak (s.currentStreak + 1)) (s.currentStreak + 1) hl hc]
  exact ⟨rfl, rfl⟩

theorem submitAnswer_correct_end_lives {T : Type} (getId : T → String)
    (cfg : GauntletConfig T) (s : GauntletState T) (now : Int) (r : Nat)
    (cq : GauntletQuestion T)
    (hphase : s.phase = Phase.playing) (hcq : currentQuestion s = some cq)
    (hl : s.lives ≤ 0) :
    (submitAnswer getId cfg s true now r).phase = Phase.results ∧
    (submitAnswer getId cfg s true now r).sessionStats =
      some (endGameStats cfg s now false s.lives (s.correctAnswers + 1) s.wrongAnswers
        (s.currentIndex + 1) (max s.bestStreak (s.currentStreak + 1))
        (s.currentStreak + 1)) := by
  rw [submitAnswer_correct_eq getId cfg s now r cq hphase hcq,
    advance_end_lives_zero getId cfg s (correctUpdatedState getId cfg s cq now) now r
      s.lives true (s.correctAnswers + 1) s.wrongAnswers (s.currentIndex + 1)
      (max s.bestStreak (s.currentStreak + 1)) (s.currentStreak + 1) hl]
  exact ⟨rfl, rfl⟩

theorem submitAnswer_correct_continue_phase {T : Type} (getId : T → String)
    (cfg : GauntletConfig T) (s : GauntletState T) (now : Int) (r : Nat)
    (cq : GauntletQuestion T)
    (hphase : s.phase = Phase.playing) (hcq : currentQuestion s = some cq)
    (hl : ¬ s.lives ≤ 0) (hc : ¬ totalQuestions cfg ≤ s.correctAnswers + 1) :
    (submitAnswer getId cfg s true now r).phase = Phase.playing := by
  rw [submitAnswer_correct_eq getId cfg s now r cq hphase hcq,
    advance_continue_correct getId cfg s (correctUpdatedState getId cfg s cq now) now r
      s.lives (s.correctAnswers + 1) s.wrongAnswers (s.currentIndex + 1)
      (max s.bestStreak (s.currentStreak + 1)) (s.currentStreak + 1) hl hc,
    correctUpdatedState_eq]
  exact hphase

theorem getElem?_spliceInsert_self {α : Type} :
    ∀ (l : List α) (n : Nat) (a : α), n ≤ l.length → (spliceInsert l n a)[n]? = some a
  | l, 0, a, _ => by simp [spliceInsert]
  | [], n + 1, a, h => by simp at h
  | x :: xs, n + 1, a, h => by
    simpa [spliceInsert] using getElem?_spliceInsert_self xs n a (by simpa using h)

/-- The entry at the answered slot survives a re-queue with its item: the
clone is inserted at `currentIndex + insertOffset`, which is behind the
slot whenever the offset is positive, and is the identical clone itself
when an (out-of-range) zero offset puts it at the slot. -/
theorem requeuedQueue_currentIndex {T : Type} (cfg : GauntletConfig T)
    (q : List (GauntletQuestion T)) (ci r : Nat) (cq : GauntletQuestion T)
    (hcq : q[ci]? = some cq) :
    ∃ e, (requeuedQueue cfg q ci r)[ci]? = some e ∧ e.item = cq.item := by
  have hci : ci < q.length := (List.getElem?_eq_some.1 hcq).1
  simp only [requeuedQueue]
  by_cases hlt : q.length < totalQuestions cfg * 3
  · rw [if_pos hlt, hcq]
    rcases Nat.eq_zero_or_pos (if 0 < q.length - (ci + 1) then r else 1) with hk | hk
    · rw [hk]
      exact ⟨cq, getElem?_spliceInsert_self q ci cq (by omega), rfl⟩
    · refine ⟨cq, ?_, rfl⟩
      rw [getElem?_spliceInsert_lt q (ci + _) cq ci (by omega) hci]
      exact hcq
  · rw [if_neg hlt]
    exact ⟨cq, hcq, rfl⟩

/-- Accuracy recorded by endGame: equal to the exact rational quotient in
every case (the guard makes the zero-denominator case 0, which agrees with
the quotient convention), and exactly 0 when both counters are zero. -/
theorem endGameStats_accuracy {T : Type} (cfg : GauntletConfig T) (s0 : GauntletState T)
    (now : Int) (completed : Bool) (al : Int) (ac aw qc ab acs : Nat) :
    (endGameStats cfg s0 now completed al ac aw qc ab acs).accuracy =
      ((endGameStats cfg s0 now completed al ac aw qc ab acs).correctAnswers : ℚ) /
        (((endGameStats cfg s0 now completed al ac aw qc ab acs).correctAnswers : ℚ) +
          ((endGameStats cfg s0 now completed al ac aw qc ab acs).wrongAnswers : ℚ)) ∧
    ((endGameStats cfg s0 now completed al ac aw qc ab acs).correctAnswers = 0 ∧
      (endGameStats cfg s0 now completed al ac aw qc ab acs).wrongAnswers = 0 →
      (endGameStats cfg s0 now completed al ac aw qc ab acs).accuracy = 0) := by
  have hc : (endGameStats cfg s0 now completed al ac aw qc ab acs).correctAnswers = ac := rfl
  have hw : (endGameStats cfg s0 now completed al ac aw qc ab acs).wrongAnswers = aw := rfl
  have ha : (endGameStats cfg s0 now completed al ac aw qc ab acs).accuracy =
      (if 0 < ac + aw then (ac : ℚ) / ((ac : ℚ) + (aw : ℚ)) else 0) := rfl
  rw [hc, hw, ha]
  constructor
  · split
    · rfl
    · rename_i hz
      have h0 : ac = 0 ∧ aw = 0 := by omega
      rw [h0.1, h0.2]
      norm_num
  · intro hz
    rw [hz.1, hz.2]
    norm_num

theorem submitAnswer_correct_continue_proj {T : Type} (getId : T → String)
    (cfg : GauntletConfig T) (s : GauntletState T) (now : Int) (r : Nat)
    (cq : GauntletQuestion T)
    (hphase : s.phase = Phase.playing) (hcq : currentQuestion s = some cq)
    (hl : ¬ s.lives ≤ 0) (hc : ¬ totalQuestions cfg ≤ s.correctAnswers + 1) :
    (submitAnswer getId cfg s true now r).currentIndex = s.currentIndex + 1 ∧
    (submitAnswer getId cfg s true now r).correctAnswers = s.correctAnswers + 1 ∧
    (submitAnswer getId cfg s true now r).regenThreshold = s.regenThreshold := by
  rw [submitAnswer_correct_eq getId cfg s now r cq hphase hcq,
    advance_continue_correct getId cfg s (correctUpdatedState getId cfg s cq now) now r
      s.lives (s.correctAnswers + 1) s.wrongAnswers (s.currentIndex + 1)
      (max s.bestStreak (s.currentStreak + 1)) (s.currentStreak + 1) hl hc,
    correctUpdatedState_eq]
  exact ⟨rfl, rfl, rfl⟩

theorem submitCorrectN_succ_back {T : Type} (getId : T → String) (cfg : GauntletConfig T) :
    ∀ (k : Nat) (s : GauntletState T) (times : Nat → Int),
      submitCorrectN getId cfg (k + 1) s times =
        submitAnswer getId cfg (submitCorrectN getId cfg k s times) true (times k) 0
  | 0, s, times => rfl
  | k + 1, s, times => by
    show submitCorrectN getId cfg (k + 1)
        (submitAnswer getId cfg s true (times 0) 0) (fun i => times (i + 1)) = _
    rw [submitCorrectN_succ_back getId cfg k (submitAnswer getId cfg s true (times 0) 0)
      (fun i => times (i + 1))]
    rfl

/-- After `k` consecutive correct answers that stay short of the regen
threshold (and short of completion and of the end of the queue), the
session is still playing with the same lives and the regen counter
advanced by `k`. -/
theorem submitCorrectN_pending {T : Type} (getId : T → String) (cfg : GauntletConfig T) :
    ∀ (k : Nat) (s : GauntletState T) (times : Nat → Int),
      s.phase = Phase.playing →
      cfg.regenerates = true →
      s.lives < (s.maxLives : Int) →
      0 < s.lives →
      s.currentIndex + k < s.questionQueue.length →
      s.correctAnswers + k < totalQuestions cfg →
      s.correctSinceLastRegen + k < s.regenThreshold →
      (submitCorrectN getId cfg k s times).phase = Phase.playing ∧
      (submitCorrectN getId cfg k s times).lives = s.lives ∧
      (submitCorrectN getId cfg k s times).maxLives = s.maxLives ∧
      (submitCorrectN getId cfg k s times).correctSinceLastRegen =
        s.correctSinceLastRegen + k ∧
      (submitCorrectN getId cfg k s times).regenThreshold = s.regenThreshold ∧
      (submitCorrectN getId cfg k s times).livesRegenerated = s.livesRegenerated ∧
      (submitCorrectN getId cfg k s times).currentIndex = s.currentIndex + k ∧
      (submitCorrectN getId cfg k s times).correctAnswers = s.correctAnswers + k ∧
      (submitCorrectN getId cfg k s times).questionQueue.length =
        s.questionQueue.length
  | 0, s, times, hphase, _, _, _, _, _, _ =>
    ⟨hphase, rfl, rfl, rfl, rfl, rfl, rfl, rfl, rfl⟩
  | k + 1, s, times, hphase, hregen, hlm, hl0, hqlen, hct, hcsr => by
    have hci : s.currentIndex < s.questionQueue.length := by omega
    obtain ⟨cq, hcq⟩ : ∃ cq, currentQuestion s = some cq :=
      ⟨_, List.getElem?_eq_getElem hci⟩
    have hl : ¬ s.lives ≤ 0 := by omega
    have hc : ¬ totalQuestions cfg ≤ s.correctAnswers + 1 := by omega
    have hth : ¬ s.regenThreshold ≤ s.correctSinceLastRegen + 1 := by omega
    obtain ⟨hlv, hcsr1, hlr, -, -, hml⟩ :=
      submitAnswer_correct_proj getId cfg s (times 0) 0 cq hphase hcq
    rw [if_neg (fun hh => hth hh.2.2)] at hlv
    rw [if_pos ⟨hregen, hlm⟩, if_neg hth] at hcsr1
    rw [if_neg (fun hh => hth hh.2.2)] at hlr
    obtain ⟨hcix, hca, hthr⟩ :=
      submitAnswer_correct_continue_proj getId cfg s (times 0) 0 cq hphase hcq hl hc
    have hqq := submitAnswer_correct_queue_length getId cfg s (times 0) 0 cq hphase hcq
    have hph := submitAnswer_correct_continue_phase getId cfg s (times 0) 0 cq hphase hcq hl hc
    have ih := submitCorrectN_pending getId cfg k (submitAnswer getId cfg s true (times 0) 0)
      (fun i => times (i + 1)) hph hregen (by rw [hlv, hml]; exact hlm)
      (by rw [hlv]; exact hl0) (by rw [hcix, hqq]; omega) (by rw [hca]; omega)
      (by rw [hcsr1, hthr]; omega)
    have hunf : submitCorrectN getId cfg (k + 1) s times =
        submitCorrectN getId cfg k (submitAnswer getId cfg s true (times 0) 0)
          (fun i => times (i + 1)) := rfl
    rw [hunf]
    obtain ⟨i1, i2, i3, i4, i5, i6, i7, i8, i9⟩ := ih
    refine ⟨i1, ?_, ?_, ?_, ?_, ?_, ?_, ?_, ?_⟩
    · rw [i2, hlv]
    · rw [i3, hml]
    · rw [i4, hcsr1]
      omega
    · rw [i5, hthr]
    · rw [i6, hlr]
    · rw [i7, hcix]
      omega
    · rw [i8, hca]
      omega
    · rw [i9, hqq]

/-! ### Claim theorems -/

/-- C1: for every session (reachable state) the lives counter is in the
closed interval [0, maxLives]; a wrong answer decrements lives by exactly
one but never drives it below 0, and a regeneration on a correct answer
never drives lives above maxLives. -/
theorem C1_lives_within_bounds {T : Type} (getId : T → String) (cfg : GauntletConfig T)
    (s : GauntletState T) (h : Reachable getId cfg s) :
    (0 ≤ s.lives ∧ s.lives ≤ (s.maxLives : Int)) ∧
    (∀ (cq : GauntletQuestion T) (now : Int) (r : Nat),
      s.phase = Phase.playing → currentQuestion s = some cq →
        (submitAnswer getId cfg s false now r).lives = s.lives - 1 ∧
        0 ≤ (submitAnswer getId cfg s false now r).lives) ∧
    (∀ (cq : GauntletQuestion T) (now : Int) (r : Nat),
      s.phase = Phase.playing → currentQuestion s = some cq →
        (submitAnswer getId cfg s true now r).lives ≤
          ((submitAnswer getId cfg s true now r).maxLives : Int)) := by
  obtain ⟨h0, h1, h2, h3, h4⟩ := reachable_invariant h
  refine ⟨⟨h0, h1⟩, ?_, ?_⟩
  · intro cq now r hphase hcq
    obtain ⟨hw, -⟩ := submitAnswer_wrong_proj getId cfg s now r cq hphase hcq
    have := h2 hphase
    refine ⟨hw, ?_⟩
    rw [hw]
    omega
  · intro cq now r hphase hcq
    obtain ⟨hlv, -, -, -, -, hml⟩ := submitAnswer_correct_proj getId cfg s now r cq hphase hcq
    rw [hlv, hml]
    split
    · exact min_le_right _ _
    · exact h1

/-- Witness for C1 at a concrete freshly started session. -/
theorem C1_lives_within_bounds_witness :
    0 ≤ stateSingleA0.lives ∧ stateSingleA0.lives ≤ (stateSingleA0.maxLives : Int) :=
  (C1_lives_within_bounds strId cfgSingleA stateSingleA0
    (Reachable.start (initialState String) 1000 [] (by decide) (by decide)
      (by decide))).1

/-- C5: for every session the queue length never exceeds
3 × totalQuestions; a correct answer never grows the queue, and a wrong
answer at the cap does not re-queue. -/
theorem C5_queue_growth_bounded {T : Type} (getId : T → String) (cfg : GauntletConfig T)
    (s : GauntletState T) (h : Reachable getId cfg s) :
    s.questionQueue.length ≤ totalQuestions cfg * 3 ∧
    (∀ (cq : GauntletQuestion T) (now : Int) (r : Nat),
      s.phase = Phase.playing → currentQuestion s = some cq →
        (submitAnswer getId cfg s true now r).questionQueue.length =
          s.questionQueue.length ∧
        (totalQuestions cfg * 3 ≤ s.questionQueue.length →
          (submitAnswer getId cfg s false now r).questionQueue.length =
            s.questionQueue.length)) := by
  obtain ⟨-, -, -, h3, -⟩ := reachable_invariant h
  refine ⟨h3, fun cq now r hphase hcq => ⟨?_, fun hcap => ?_⟩⟩
  · exact submitAnswer_correct_queue_length getId cfg s now r cq hphase hcq
  · exact submitAnswer_wrong_queue_capped getId cfg s now r cq hphase hcq hcap

/-- Witness for C5 at a concrete freshly started session. -/
theorem C5_queue_growth_bounded_witness :
    stateSingleA0.questionQueue.length ≤ totalQuestions cfgSingleA * 3 :=
  (C5_queue_growth_bounded strId cfgSingleA stateSingleA0
    (Reachable.start (initialState String) 1000 [] (by decide) (by decide)
      (by decide))).1

/-- C10: a submitAnswer with no current question (empty queue or
currentIndex at or past the end) leaves the whole state unchanged. -/
theorem C10_noop_without_current_question {T : Type} (getId : T → String)
    (cfg : GauntletConfig T) (s : GauntletState T) (isCorrect : Bool)
    (now : Int) (r : Nat) (h : currentQuestion s = none) :
    submitAnswer getId cfg s isCorrect now r = s := by
  by_cases hphase : s.phase = Phase.playing
  · exact submitAnswer_no_current getId cfg s isCorrect now r h
  · exact submitAnswer_not_playing getId cfg s isCorrect now r hphase

/-- Witness for C10 on a playing state with an empty queue. -/
theorem C10_noop_without_current_question_witness :
    submitAnswer strId cfgSingleA emptyPlayingState true 9999 0 = emptyPlayingState :=
  C10_noop_without_current_question strId cfgSingleA emptyPlayingState true 9999 0
    (by decide)

/-- C9: evaluation of the code on the failing input (one item, one
repetition, four starting lives, three consecutive wrong answers, in-range
oracle values): the session is still in the playing phase with
currentIndex = 3 = queue length, so no current question exists and every
further submitAnswer is a no-op — the session can neither be finished nor
failed.  This refutes the claimed invariant currentIndex < queue length
for reachable playing states. -/
theorem C9_softlock_trace :
    softlockState3.phase = Phase.playing ∧
    softlockState3.questionQueue.length = 3 ∧
    softlockState3.currentIndex = 3 ∧
    currentQuestion softlockState3 = none ∧
    0 < softlockState3.lives ∧
    submitAnswer strId cfgSoftlock softlockState3 false 5000 0 = softlockState3 := by
  decide

/-- C3 counterexample: the item set a, b, c (three distinct identities),
two repetitions, and the Fisher–Yates draws [5, 4, 3, 1, 1] (each in its
legal range [0, i]) shuffle the cross product into identity order
a, b, a, b, c, c; the single stabilization pass finds no later different
entry for the trailing c, c pair and leaves it adjacent. -/
theorem C3_counterexample :
    1 < (["a", "b", "c"] : List String).dedup.length ∧
    (generateQuestionQueue strId ["a", "b", "c"] 2 [5, 4, 3, 1, 1]).length = 6 ∧
    qid strId (generateQuestionQueue strId ["a", "b", "c"] 2 [5, 4, 3, 1, 1]) 4 =
      some "c" ∧
    qid strId (generateQuestionQueue strId ["a", "b", "c"] 2 [5, 4, 3, 1, 1]) 5 =
      some "c" := by
  decide

/-- C3 (amended): for every item set, repetition count and shuffle
outcome, the initial queue contains no two adjacent entries sharing an
identity except possibly inside a trailing segment in which every entry
from the first repeated pair onward shares that identity. -/
theorem C3_repeats_only_in_uniform_tail {T : Type} (getId : T → String)
    (items : List T) (repetitions : Nat) (js : List Nat) (i j : Nat)
    (heq : qid getId (generateQuestionQueue getId items repetitions js) i =
      qid getId (generateQuestionQueue getId items repetitions js) (i + 1))
    (hij : i ≤ j) (hj : j < (generateQuestionQueue getId items repetitions js).length) :
    qid getId (generateQuestionQueue getId items repetitions js) j =
      qid getId (generateQuestionQueue getId items repetitions js) i :=
  generateQuestionQueue_pair_tail getId items repetitions js i heq j hij hj

/-- Witness for the amended C3 on the counterexample queue: the adjacent
pair at indices 4, 5 forces every later entry to share its identity. -/
theorem C3_repeats_only_in_uniform_tail_witness :
    qid strId (generateQuestionQueue strId ["a", "b", "c"] 2 [5, 4, 3, 1, 1]) 5 =
      qid strId (generateQuestionQueue strId ["a", "b", "c"] 2 [5, 4, 3, 1, 1]) 4 :=
  C3_repeats_only_in_uniform_tail strId ["a", "b", "c"] 2 [5, 4, 3, 1, 1] 4 5
    (by decide) (by decide) (by decide)

/-- C2: the playing → results transition is dispatched exactly once per
session: in the results phase submitAnswer is the identity; from a playing
state with a current question a wrong answer that exhausts lives
terminates with completed = false and otherwise the session stays playing;
a correct answer that reaches the target terminates with completed = true
and otherwise the session stays playing; and the lives-zero check takes
priority over the completion check (a correct answer with lives already at
zero terminates with completed = false even if the target is reached). -/
theorem C2_termination_dispatch {T : Type} (getId : T → String) (cfg : GauntletConfig T)
    (s : GauntletState T) (cq : GauntletQuestion T) (now : Int) (r : Nat) :
    (s.phase = Phase.results → ∀ (b : Bool) (now' : Int) (r' : Nat),
      submitAnswer getId cfg s b now' r' = s) ∧
    (s.phase = Phase.playing → currentQuestion s = some cq →
      ((s.lives - 1 ≤ 0 →
        (submitAnswer getId cfg s false now r).phase = Phase.results ∧
        completedFlag (submitAnswer getId cfg s false now r) = some false) ∧
      (0 < s.lives - 1 →
        (submitAnswer getId cfg s false now r).phase = Phase.playing) ∧
      (0 < s.lives → totalQuestions cfg ≤ s.correctAnswers + 1 →
        (submitAnswer getId cfg s true now r).phase = Phase.results ∧
        completedFlag (submitAnswer getId cfg s true now r) = some true) ∧
      (0 < s.lives → s.correctAnswers + 1 < totalQuestions cfg →
        (submitAnswer getId cfg s true now r).phase = Phase.playing) ∧
      (s.lives ≤ 0 →
        (submitAnswer getId cfg s true now r).phase = Phase.results ∧
        completedFlag (submitAnswer getId cfg s true now r) = some false))) := by
  constructor
  · intro hres b now' r'
    refine submitAnswer_not_playing getId cfg s b now' r' ?_
    rw [hres]
    decide
  · intro hphase hcq
    refine ⟨fun hl => ?_, fun hl => ?_, fun hl0 hc => ?_, fun hl0 hc => ?_, fun hl => ?_⟩
    · obtain ⟨hp, hs⟩ := submitAnswer_wrong_end getId cfg s now r cq hphase hcq hl
      refine ⟨hp, ?_⟩
      unfold completedFlag
      rw [hs]
      rfl
    · exact submitAnswer_wrong_continue_phase getId cfg s now r cq hphase hcq (by omega)
    · obtain ⟨hp, hs⟩ :=
        submitAnswer_correct_end_completed getId cfg s now r cq hphase hcq (by omega) hc
      refine ⟨hp, ?_⟩
      unfold completedFlag
      rw [hs]
      rfl
    · exact submitAnswer_correct_continue_phase getId cfg s now r cq hphase hcq
        (by omega) (by omega)
    · obtain ⟨hp, hs⟩ := submitAnswer_correct_end_lives getId cfg s now r cq hphase hcq hl
      refine ⟨hp, ?_⟩
      unfold completedFlag
      rw [hs]
      rfl

/-- Witness for C2: on the one-life one-question session a wrong answer
fails the session (completed = false) and a correct answer completes it
(completed = true). -/
theorem C2_termination_dispatch_witness :
    ((submitAnswer strId cfgSingleA stateSingleA0 false 1500 0).phase = Phase.results ∧
      completedFlag (submitAnswer strId cfgSingleA stateSingleA0 false 1500 0) =
        some false) ∧
    ((submitAnswer strId cfgSingleA stateSingleA0 true 1500 0).phase = Phase.results ∧
      completedFlag (submitAnswer strId cfgSingleA stateSingleA0 true 1500 0) =
        some true) := by
  have h := (C2_termination_dispatch strId cfgSingleA stateSingleA0 ⟨"a", 0, 1⟩ 1500 0).2
    (by decide) (by decide)
  exact ⟨h.1 (by decide), h.2.2.1 (by decide) (by decide)⟩

/-- C4 counterexample: with the two-identity item set a, b (one repetition
each), answering a correctly and then b wrongly re-queues the clone of b
as the only remaining entry, so the continuing session presents b again
immediately — the same identity twice in a row although the item set has
more than one distinct identity. -/
theorem C4_counterexample :
    1 < (["a", "b"] : List String).dedup.length ∧
    statePairAB1.phase = Phase.playing ∧
    (currentQuestion statePairAB1).map (fun q => strId q.item) = some "b" ∧
    statePairAB2.phase = Phase.playing ∧
    (currentQuestion statePairAB2).map (fun q => strId q.item) = some "b" := by
  decide

/-- C4 (amended): after every submitAnswer on which the session continues,
either the newly-current entry has a different identity from the
just-answered entry, or every entry after the answered slot shares the
answered identity (the documented fallback; with exactly one distinct
identity in the item set this is always the case). -/
theorem C4_no_immediate_repeat_except_uniform_tail {T : Type} (getId : T → String)
    (cfg : GauntletConfig T) (s : GauntletState T) (cq : GauntletQuestion T)
    (isCorrect : Bool) (now : Int) (r : Nat)
    (hphase : s.phase = Phase.playing) (hcq : currentQuestion s = some cq)
    (hcont : (submitAnswer getId cfg s isCorrect now r).phase = Phase.playing) :
    (∀ e, currentQuestion (submitAnswer getId cfg s isCorrect now r) = some e →
      getId e.item ≠ getId cq.item) ∨
    (∀ j e, s.currentIndex < j →
      (submitAnswer getId cfg s isCorrect now r).questionQueue[j]? = some e →
      getId e.item = getId cq.item) := by
  cases isCorrect with
  | true =>
    by_cases hl : s.lives ≤ 0
    · exfalso
      have hp := (submitAnswer_correct_end_lives getId cfg s now r cq hphase hcq hl).1
      rw [hp] at hcont
      exact absurd hcont (by decide)
    · by_cases hc : totalQuestions cfg ≤ s.correctAnswers + 1
      · exfalso
        have hp :=
          (submitAnswer_correct_end_completed getId cfg s now r cq hphase hcq hl hc).1
        rw [hp] at hcont
        exact absurd hcont (by decide)
      · rw [submitAnswer_correct_eq getId cfg s now r cq hphase hcq,
          advance_continue_correct getId cfg s (correctUpdatedState getId cfg s cq now)
            now r s.lives (s.correctAnswers + 1) s.wrongAnswers (s.currentIndex + 1)
            (max s.bestStreak (s.currentStreak + 1)) (s.currentStreak + 1) hl hc,
          correctUpdatedState_eq]
        rcases ensureNext_spec getId s.questionQueue s.currentIndex cq hcq with hL | ⟨hE, hR⟩
        · left
          intro e he
          exact hL e he
        · right
          intro j e hj he
          have hqe : s.questionQueue[j]? = some e := by
            rw [← hE]
            exact he
          have hjlen : j < s.questionQueue.length := (List.getElem?_eq_some.1 hqe).1
          have hid := hR j hj hjlen
          unfold qid at hid
          rw [hqe] at hid
          simpa using hid
  | false =>
    by_cases hl : s.lives - 1 ≤ 0
    · exfalso
      have hp := (submitAnswer_wrong_end getId cfg s now r cq hphase hcq hl).1
      rw [hp] at hcont
      exact absurd hcont (by decide)
    · rw [submitAnswer_wrong_eq getId cfg s now r cq hphase hcq,
        advance_continue_wrong getId cfg s (wrongUpdatedState getId s cq now) now r
          (s.lives - 1) s.correctAnswers (s.wrongAnswers + 1) (s.currentIndex + 1)
          s.bestStreak 0 hl, wrongUpdatedState_eq]
      obtain ⟨qa, hqa, hitem⟩ :=
        requeuedQueue_currentIndex cfg s.questionQueue s.currentIndex r cq hcq
      rcases ensureNext_spec getId (requeuedQueue cfg s.questionQueue s.currentIndex r)
          s.currentIndex qa hqa with hL | ⟨hE, hR⟩
      · left
        intro e he
        have := hL e he
        rw [hitem] at this
        exact this
      · right
        intro j e hj he
        have hWe : (requeuedQueue cfg s.questionQueue s.currentIndex r)[j]? = some e := by
          rw [← hE]
          exact he
        have hjlen : j < (requeuedQueue cfg s.questionQueue s.currentIndex r).length :=
          (List.getElem?_eq_some.1 hWe).1
        have hid := hR j hj hjlen
        unfold qid at hid
        rw [hWe, hitem] at hid
        simpa using hid

/-- Witness for the amended C4: answering the first question of the a, b
session correctly either changes the presented identity or leaves only
same-identity entries (here the former holds). -/
theorem C4_no_immediate_repeat_except_uniform_tail_witness :
    (∀ e, currentQuestion (submitAnswer strId cfgPairAB statePairAB0 true 1100 0) = some e →
      strId e.item ≠ strId (⟨"a", 0, 1⟩ : GauntletQuestion String).item) ∨
    (∀ j e, statePairAB0.currentIndex < j →
      (submitAnswer strId cfgPairAB statePairAB0 true 1100 0).questionQueue[j]? = some e →
      strId e.item = strId (⟨"a", 0, 1⟩ : GauntletQuestion String).item) :=
  C4_no_immediate_repeat_except_uniform_tail strId cfgPairAB statePairAB0 ⟨"a", 0, 1⟩
    true 1100 0 (by decide) (by decide) (by decide)

/-- C6: regenThreshold is computed once at session start as
clamp(⌈0.1 × totalQuestions⌉, 5, 20) — in particular 10 for
totalQuestions = 100; while the difficulty regenerates and lives are below
maxLives, a correct answer increments the regen counter, and on the answer
where it reaches the threshold exactly one life is restored (clamped at
maxLives), the counter resets to 0 and the regeneration event is counted;
a wrong answer resets the consecutive count to 0; and with threshold 10
(as for totalQuestions = 100) ten consecutive correct answers starting
below maxLives restore exactly one life and leave the counter at 0. -/
theorem C6_life_regeneration {T : Type} (getId : T → String) (cfg : GauntletConfig T) :
    (∀ (s0 : GauntletState T) (now : Int) (js : List Nat),
      (handleStart getId cfg s0 now js).regenThreshold =
        max 5 (min 20 ((totalQuestions cfg + 9) / 10))) ∧
    calculateRegenThreshold 100 = 10 ∧
    (∀ (s : GauntletState T) (cq : GauntletQuestion T) (now : Int) (r : Nat),
      s.phase = Phase.playing → currentQuestion s = some cq →
      cfg.regenerates = true → s.lives < (s.maxLives : Int) →
        (s.regenThreshold ≤ s.correctSinceLastRegen + 1 →
          (submitAnswer getId cfg s true now r).lives =
            min (s.lives + 1) (s.maxLives : Int) ∧
          (submitAnswer getId cfg s true now r).correctSinceLastRegen = 0 ∧
          (submitAnswer getId cfg s true now r).livesRegenerated =
            s.livesRegenerated + 1) ∧
        (s.correctSinceLastRegen + 1 < s.regenThreshold →
          (submitAnswer getId cfg s true now r).lives = s.lives ∧
          (submitAnswer getId cfg s true now r).correctSinceLastRegen =
            s.correctSinceLastRegen + 1 ∧
          (submitAnswer getId cfg s true now r).livesRegenerated =
            s.livesRegenerated)) ∧
    (∀ (s : GauntletState T) (cq : GauntletQuestion T) (now : Int) (r : Nat),
      s.phase = Phase.playing → currentQuestion s = some cq →
        (submitAnswer getId cfg s false now r).correctSinceLastRegen = 0) ∧
    (∀ (s : GauntletState T) (times : Nat → Int),
      s.phase = Phase.playing → cfg.regenerates = true →
      s.lives < (s.maxLives : Int) → 0 < s.lives →
      s.correctSinceLastRegen = 0 → s.regenThreshold = 10 →
      s.currentIndex + 10 ≤ s.questionQueue.length →
      s.correctAnswers + 10 ≤ totalQuestions cfg →
        (submitCorrectN getId cfg 10 s times).lives =
          min (s.lives + 1) (s.maxLives : Int) ∧
        (submitCorrectN getId cfg 10 s times).correctSinceLastRegen = 0 ∧
        (submitCorrectN getId cfg 10 s times).livesRegenerated =
          s.livesRegenerated + 1) := by
  refine ⟨?_, by decide, ?_, ?_, ?_⟩
  · intro s0 now js
    rw [handleStart_eq]
    show calculateRegenThreshold
      (generateQuestionQueue getId cfg.items cfg.repetitions js).length = _
    rw [length_generateQuestionQueue]
    rfl
  · intro s cq now r hphase hcq hregen hlm
    obtain ⟨hlv, hcsr, hlr, -, -, -⟩ :=
      submitAnswer_correct_proj getId cfg s now r cq hphase hcq
    constructor
    · intro hth
      rw [hlv, hcsr, hlr, if_pos ⟨hregen, hlm, hth⟩, if_pos ⟨hregen, hlm⟩, if_pos hth,
        if_pos ⟨hregen, hlm, hth⟩]
      exact ⟨rfl, rfl, rfl⟩
    · intro hth
      have hth' : ¬ s.regenThreshold ≤ s.correctSinceLastRegen + 1 := by omega
      rw [hlv, hcsr, hlr, if_neg (fun hh => hth' hh.2.2), if_pos ⟨hregen, hlm⟩,
        if_neg hth', if_neg (fun hh => hth' hh.2.2)]
      exact ⟨rfl, rfl, rfl⟩
  · intro s cq now r hphase hcq
    exact (submitAnswer_wrong_proj getId cfg s now r cq hphase hcq).2.1
  · intro s times hphase hregen hlm hl0 hcsr0 hthr10 hqlen hct
    obtain ⟨p1, p2, p3, p4, p5, p6, p7, p8, p9⟩ :=
      submitCorrectN_pending getId cfg 9 s times hphase hregen hlm hl0
        (by omega) (by omega) (by omega)
    rw [submitCorrectN_succ_back getId cfg 9 s times]
    have hci9 : (submitCorrectN getId cfg 9 s times).currentIndex <
        (submitCorrectN getId cfg 9 s times).questionQueue.length := by
      rw [p7, p9]
      omega
    obtain ⟨cq9, hcq9⟩ : ∃ cq, currentQuestion (submitCorrectN getId cfg 9 s times) = some cq :=
      ⟨_, List.getElem?_eq_getElem hci9⟩
    obtain ⟨hlv, hcsr1, hlr, -, -, -⟩ :=
      submitAnswer_correct_proj getId cfg (submitCorrectN getId cfg 9 s times)
        (times 9) 0 cq9 p1 hcq9
    have hcond : cfg.regenerates = true ∧
        (submitCorrectN getId cfg 9 s times).lives <
          ((submitCorrectN getId cfg 9 s times).maxLives : Int) ∧
        (submitCorrectN getId cfg 9 s times).regenThreshold ≤
          (submitCorrectN getId cfg 9 s times).correctSinceLastRegen + 1 := by
      refine ⟨hregen, ?_, ?_⟩
      · rw [p2, p3]
        exact hlm
      · rw [p5, p4]
        omega
    rw [hlv, if_pos hcond, hcsr1, if_pos ⟨hcond.1, hcond.2.1⟩, if_pos hcond.2.2,
      hlr, if_pos hcond]
    refine ⟨?_, rfl, ?_⟩
    · rw [p2, p3]
    · rw [p6]

/-- Witness for C6: in the regenerating session with one lost life and the
regen counter one short of the threshold, a correct answer restores a
life, resets the counter and counts the regeneration. -/
theorem C6_life_regeneration_witness :
    (submitAnswer strId cfgRegenAB regenDemoState true 1100 0).lives =
      min (regenDemoState.lives + 1) (regenDemoState.maxLives : Int) ∧
    (submitAnswer strId cfgRegenAB regenDemoState true 1100 0).correctSinceLastRegen = 0 ∧
    (submitAnswer strId cfgRegenAB regenDemoState true 1100 0).livesRegenerated =
      regenDemoState.livesRegenerated + 1 :=
  ((C6_life_regeneration strId cfgRegenAB).2.2.1 regenDemoState ⟨"a", 0, 1⟩ 1100 0
    (by decide) (by decide) (by decide) (by decide)).1 (by decide)

/-- C7: whenever a submitAnswer terminates the session, the recorded
accuracy equals correctAnswers / (correctAnswers + wrongAnswers) as an
exact rational quotient, and is exactly 0 (defined, no NaN, no throw) when
both counters are zero. -/
theorem C7_accuracy_guarded {T : Type} (getId : T → String) (cfg : GauntletConfig T)
    (s : GauntletState T) (cq : GauntletQuestion T) (isCorrect : Bool)
    (now : Int) (r : Nat)
    (hphase : s.phase = Phase.playing) (hcq : currentQuestion s = some cq)
    (hres : (submitAnswer getId cfg s isCorrect now r).phase = Phase.results)
    (res : SessionResult)
    (hstats : (submitAnswer getId cfg s isCorrect now r).sessionStats = some res) :
    res.accuracy = (res.correctAnswers : ℚ) /
      ((res.correctAnswers : ℚ) + (res.wrongAnswers : ℚ)) ∧
    (res.correctAnswers = 0 ∧ res.wrongAnswers = 0 → res.accuracy = 0) := by
  cases isCorrect with
  | false =>
    by_cases hl : s.lives - 1 ≤ 0
    · obtain ⟨-, hs⟩ := submitAnswer_wrong_end getId cfg s now r cq hphase hcq hl
      rw [hs] at hstats
      injection hstats with h
      subst h
      exact endGameStats_accuracy cfg s now false (s.lives - 1) s.correctAnswers
        (s.wrongAnswers + 1) (s.currentIndex + 1) s.bestStreak 0
    · exfalso
      have hp := submitAnswer_wrong_continue_phase getId cfg s now r cq hphase hcq hl
      rw [hp] at hres
      exact absurd hres (by decide)
  | true =>
    by_cases hl : s.lives ≤ 0
    · obtain ⟨-, hs⟩ := submitAnswer_correct_end_lives getId cfg s now r cq hphase hcq hl
      rw [hs] at hstats
      injection hstats with h
      subst h
      exact endGameStats_accuracy cfg s now false s.lives (s.correctAnswers + 1)
        s.wrongAnswers (s.currentIndex + 1) (max s.bestStreak (s.currentStreak + 1))
        (s.currentStreak + 1)
    · by_cases hc : totalQuestions cfg ≤ s.correctAnswers + 1
      · obtain ⟨-, hs⟩ :=
          submitAnswer_correct_end_completed getId cfg s now r cq hphase hcq hl hc
        rw [hs] at hstats
        injection hstats with h
        subst h
        exact endGameStats_accuracy cfg s now true s.lives (s.correctAnswers + 1)
          s.wrongAnswers (s.currentIndex + 1) (max s.bestStreak (s.currentStreak + 1))
          (s.currentStreak + 1)
      · exfalso
        have hp := submitAnswer_correct_continue_phase getId cfg s now r cq hphase hcq hl hc
        rw [hp] at hres
        exact absurd hres (by decide)

/-- Witness for C7 on the failed one-question session (0 correct, 1
wrong): accuracy equals the quotient and the zero-zero guard holds. -/
theorem C7_accuracy_guarded_witness :
    resSingleA.accuracy = (resSingleA.correctAnswers : ℚ) /
      ((resSingleA.correctAnswers : ℚ) + (resSingleA.wrongAnswers : ℚ)) ∧
    (resSingleA.correctAnswers = 0 ∧ resSingleA.wrongAnswers = 0 →
      resSingleA.accuracy = 0) :=
  C7_accuracy_guarded strId cfgSingleA stateSingleA0 ⟨"a", 0, 1⟩ false 1500 0
    (by decide) (by decide) (by decide) resSingleA rfl

/-- C8 counterexample: the very first submitAnswer of the session started
at time 1000 and answered at time 1500 records a 500 ms entry —
`lastAnswerTime` is initialized to the start time by handleStart, so
recording is not skipped for the first answer. -/
theorem C8_counterexample :
    stateSingleA0.answerTimes = [] ∧
    stateSingleA0.lastAnswerTime = 1000 ∧
    (submitAnswer strId cfgSingleA stateSingleA0 false 1500 0).answerTimes = [500] := by
  decide

/-- C8 (amended): handleStart clears the recorded durations and sets the
last-answer timestamp to the session start time (so the first answer
records the time since start); every submitAnswer appends the elapsed time
since the previous recording point exactly when the timestamp is set and
the elapsed time is strictly positive, then updates the timestamp to now;
and the timing statistics of a terminating answer (average, fastest,
slowest) are computed only over the strictly-positive entries of the
recorded durations (the pre-answer list, per the source's stale closure
read). -/
theorem C8_answer_time_recording {T : Type} (getId : T → String) (cfg : GauntletConfig T) :
    (∀ (s0 : GauntletState T) (now : Int) (js : List Nat),
      (handleStart getId cfg s0 now js).answerTimes = [] ∧
      (handleStart getId cfg s0 now js).lastAnswerTime = now ∧
      (handleStart getId cfg s0 now js).startTime = now) ∧
    (∀ (s : GauntletState T) (cq : GauntletQuestion T) (isCorrect : Bool)
        (now : Int) (r : Nat),
      s.phase = Phase.playing → currentQuestion s = some cq →
        ((0 < s.lastAnswerTime ∧ 0 < now - s.lastAnswerTime →
          (submitAnswer getId cfg s isCorrect now r).answerTimes =
            s.answerTimes ++ [now - s.lastAnswerTime]) ∧
        (¬ (0 < s.lastAnswerTime ∧ 0 < now - s.lastAnswerTime) →
          (submitAnswer getId cfg s isCorrect now r).answerTimes = s.answerTimes) ∧
        (submitAnswer getId cfg s isCorrect now r).lastAnswerTime = now)) ∧
    (∀ (s : GauntletState T) (cq : GauntletQuestion T) (isCorrect : Bool)
        (now : Int) (r : Nat) (res : SessionResult),
      s.phase = Phase.playing → currentQuestion s = some cq →
      (submitAnswer getId cfg s isCorrect now r).phase = Phase.results →
      (submitAnswer getId cfg s isCorrect now r).sessionStats = some res →
        res.averageTimePerQuestionMs =
          averageOf (s.answerTimes.filter fun t => decide (0 < t)) ∧
        res.fastestAnswerMs = minOf (s.answerTimes.filter fun t => decide (0 < t)) ∧
        res.slowestAnswerMs = maxOf (s.answerTimes.filter fun t => decide (0 < t))) := by
  refine ⟨?_, ?_, ?_⟩
  · intro s0 now js
    rw [handleStart_eq]
    exact ⟨rfl, rfl, rfl⟩
  · intro s cq isCorrect now r hphase hcq
    cases isCorrect with
    | false =>
      obtain ⟨-, -, hat, hlat, -⟩ := submitAnswer_wrong_proj getId cfg s now r cq hphase hcq
      refine ⟨fun hcond => ?_, fun hcond => ?_, hlat⟩
      · rw [hat, if_pos hcond]
      · rw [hat, if_neg hcond]
    | true =>
      obtain ⟨-, -, -, hat, hlat, -⟩ :=
        submitAnswer_correct_proj getId cfg s now r cq hphase hcq
      refine ⟨fun hcond => ?_, fun hcond => ?_, hlat⟩
      · rw [hat, if_pos hcond]
      · rw [hat, if_neg hcond]
  · intro s cq isCorrect now r res hphase hcq hres hstats
    cases isCorrect with
    | false =>
      by_cases hl : s.lives - 1 ≤ 0
      · obtain ⟨-, hs⟩ := submitAnswer_wrong_end getId cfg s now r cq hphase hcq hl
        rw [hs] at hstats
        injection hstats with h
        subst h
        exact ⟨rfl, rfl, rfl⟩
      · exfalso
        have hp := submitAnswer_wrong_continue_phase getId cfg s now r cq hphase hcq hl
        rw [hp] at hres
        exact absurd hres (by decide)
    | true =>
      by_cases hl : s.lives ≤ 0
      · obtain ⟨-, hs⟩ := submitAnswer_correct_end_lives getId cfg s now r cq hphase hcq hl
        rw [hs] at hstats
        injection hstats with h
        subst h
        exact ⟨rfl, rfl, rfl⟩
      · by_cases hc : totalQuestions cfg ≤ s.correctAnswers + 1
        · obtain ⟨-, hs⟩ :=
            submitAnswer_correct_end_completed getId cfg s now r cq hphase hcq hl hc
          rw [hs] at hstats
          injection hstats with h
          subst h
          exact ⟨rfl, rfl, rfl⟩
        · exfalso
          have hp :=
            submitAnswer_correct_continue_phase getId cfg s now r cq hphase hcq hl hc
          rw [hp] at hres
          exact absurd hres (by decide)

/-- Witness for the amended C8: the first answer of the concrete session
(start 1000, answer 1500) records exactly the elapsed time since the
start. -/
theorem C8_answer_time_recording_witness :
    (submitAnswer strId cfgSingleA stateSingleA0 false 1500 0).answerTimes =
      stateSingleA0.answerTimes ++ [1500 - stateSingleA0.lastAnswerTime] :=
  ((C8_answer_time_recording strId cfgSingleA).2.1 stateSingleA0 ⟨"a", 0, 1⟩ false 1500 0
    (by decide) (by decide)).1 (by decide)

end KanaDojo
